import Mathlib

/-!
PandoraClone uart arcade encoder: a verification development.

A shallow embedding of `pandoraclone.c`.  The driver receives bytes from a
serial line one at a time (`pandora_interrupt`), decodes 2-byte frames into a
packed bitfield (`mappedio_t`), diffs them against the last bitfield seen for
the player (`pandora_update_keys`) and reports key / axis events on two input
devices.  Two kernel timers (`timer`, `special_key_timeout`) release inputs
when the line goes silent.

Modelling conventions:

* an `input_dev` is the list of events reported on it so far, oldest first;
* a `timer_list` is the boolean `timer_pending` of that timer;
* the union `mappedio_t` is its two raw bytes; the bitfield members are read
  off the 16-bit value those bytes form, for either endianness of the target
  (`be = true` is `__BIG_ENDIAN`, `be = false` is `__LITTLE_ENDIAN`);
* code that would dereference `NULL`, read outside `data[]` or loop without
  end yields `none`.
-/

namespace Pandora

/-- An unsigned byte (`u8`, `unsigned char`). -/
abbrev u8 := Fin 256

/-- Size of the receive buffer: 2 players worth of data + special key data. -/
abbrev PANDORA_MAX_LENGTH_BYTES : Nat := 6
/-- Size of one frame. -/
def PANDORA_SINGLE_PLAYER_DATA_LENTGH_BYTES : Nat := 2
/-- Tag of a player-1 frame. -/
def PANDORA_PLAYER1_PREFIX : Nat := 0xc
/-- Tag of a player-2 frame. -/
def PANDORA_PLAYER2_PREFIX : Nat := 0xd
/-- Tag of a special-key frame. -/
def PANDORA_SPECIAL_PREFIX : Nat := 0xe

/-- The union `mappedio_t`, as its member `raw[2]`. -/
structure mappedio_t where
  raw0 : u8
  raw1 : u8
  deriving DecidableEq

/-- The `u16` value that the two raw bytes form in memory on the target. -/
def word (be : Bool) (m : mappedio_t) : Nat :=
  if be then m.raw0.val * 256 + m.raw1.val else m.raw0.val + m.raw1.val * 256

/-- The two raw bytes that a `u16` value occupies in memory on the target. -/
def of_word (be : Bool) (w : Nat) : mappedio_t :=
  if be then ⟨Fin.ofNat (w / 256), Fin.ofNat w⟩ else ⟨Fin.ofNat w, Fin.ofNat (w / 256)⟩

/-! Bitfield members.  On a little-endian target the first declared member
(`button_dpad_r`) is bit 0 of the `u16`; on a big-endian target the first declared
member (`button_a`) is bit 15.  Both declarations therefore give every member
the same position in the value; only the order of the bytes in memory differs. -/

def button_dpad_r (be : Bool) (m : mappedio_t) : Nat := word be m % 2
def button_dpad_l (be : Bool) (m : mappedio_t) : Nat := word be m / 2 % 2
def button_dpad_d (be : Bool) (m : mappedio_t) : Nat := word be m / 4 % 2
def button_dpad_u (be : Bool) (m : mappedio_t) : Nat := word be m / 8 % 2
def pid (be : Bool) (m : mappedio_t) : Nat := word be m / 16 % 16
def button_select (be : Bool) (m : mappedio_t) : Nat := word be m / 256 % 2
def button_start (be : Bool) (m : mappedio_t) : Nat := word be m / 512 % 2
def button_lt (be : Bool) (m : mappedio_t) : Nat := word be m / 1024 % 2
def button_b (be : Bool) (m : mappedio_t) : Nat := word be m / 2048 % 2
def button_rt (be : Bool) (m : mappedio_t) : Nat := word be m / 4096 % 2
def button_y (be : Bool) (m : mappedio_t) : Nat := word be m / 8192 % 2
def button_x (be : Bool) (m : mappedio_t) : Nat := word be m / 16384 % 2
def button_a (be : Bool) (m : mappedio_t) : Nat := word be m / 32768 % 2

/-- The assignment `m.pid = v` to the 4-bit member. -/
def set_pid (be : Bool) (m : mappedio_t) (v : Nat) : mappedio_t :=
  of_word be (word be m - pid be m * 16 + v % 16 * 16)

/-- Event codes the driver reports. -/
inductive Code where
  | BTN_A | BTN_B | BTN_X | BTN_Y | BTN_TL | BTN_TR | BTN_MODE | BTN_START | BTN_SELECT
  | BTN_DPAD_UP
  deriving DecidableEq

/-- Absolute axes the driver reports. -/
inductive Axis where
  | ABS_X | ABS_Y
  deriving DecidableEq

/-- One call into the input core. -/
inductive Event where
  | key (code : Code) (value : Int)
  | abs (axis : Axis) (value : Int)
  | sync
  deriving DecidableEq

/-- An `input_dev`: the events reported on it, oldest first. -/
abbrev input_dev := List Event

/-- `input_report_key`: one key event on the device. -/
def input_report_key (p : input_dev) (code : Code) (value : Int) : input_dev :=
  p ++ [Event.key code value]

/-- `input_report_abs`: one axis event on the device. -/
def input_report_abs (p : input_dev) (axis : Axis) (value : Int) : input_dev :=
  p ++ [Event.abs axis value]

/-- `input_sync`: the commit signal that closes a batch of events. -/
def input_sync (p : input_dev) : input_dev := p ++ [Event.sync]

/-- The C expression `!!(x)`. -/
def notnot (x : Nat) : Int := if x ≠ 0 then 1 else 0

/-- Which of the two players a pointer (`p`, `compare`) refers to. -/
inductive Slot where
  | one | two
  deriving DecidableEq

/-- `struct pandoraclone`. -/
structure pandoraclone where
  p1 : input_dev
  p2 : input_dev
  p1_prev : mappedio_t
  p2_prev : mappedio_t
  special_key_state : u8
  timer : Bool
  special_key_timeout : Bool
  idx : Nat
  data : Fin PANDORA_MAX_LENGTH_BYTES → u8

/-- The session right after `pandora_connect`: `kzalloc` memory, no event
reported, no timer pending. -/
def attached : pandoraclone :=
  { p1 := [], p2 := [], p1_prev := ⟨0, 0⟩, p2_prev := ⟨0, 0⟩, special_key_state := 0,
    timer := false, special_key_timeout := false, idx := 0, data := fun _ => 0 }

/-- `check_keys_being_pressed`: true if at least 1 key is being pressed. -/
def check_keys_being_pressed (be : Bool) (m : mappedio_t) : Bool :=
  let all_zeroes : mappedio_t := ⟨0, 0⟩
  let m := set_pid be m 0
  decide (all_zeroes ≠ m)

/-- `pandora_special_key_handle`. -/
def pandora_special_key_handle (s : pandoraclone) : pandoraclone :=
  let s :=
    if s.special_key_state = 0 then
      let p1 := input_report_key s.p1 Code.BTN_MODE 1
      { s with p1 := input_sync p1, special_key_state := 1 }
    else s
  { s with special_key_timeout := true }

/-- `pandora_update_keys`: the device after the reports, the new `*compare`,
and the returned flag. -/
def pandora_update_keys (be : Bool) (p : input_dev) (input compare : mappedio_t) :
    input_dev × mappedio_t × Bool :=
  let p :=
    if button_dpad_u be compare ≠ button_dpad_u be input ∨
        button_dpad_d be compare ≠ button_dpad_d be input then
      let p := input_report_key p Code.BTN_DPAD_UP (button_dpad_u be input)
      input_report_abs p Axis.ABS_Y (notnot (button_dpad_d be input) - notnot (button_dpad_u be input))
    else p
  let p :=
    if button_dpad_l be compare ≠ button_dpad_l be input ∨
        button_dpad_r be compare ≠ button_dpad_r be input then
      input_report_abs p Axis.ABS_X (notnot (button_dpad_r be input) - notnot (button_dpad_l be input))
    else p
  let p := if button_a be compare ≠ button_a be input then
    input_report_key p Code.BTN_A (button_a be input) else p
  let p := if button_x be compare ≠ button_x be input then
    input_report_key p Code.BTN_X (button_x be input) else p
  let p := if button_y be compare ≠ button_y be input then
    input_report_key p Code.BTN_Y (button_y be input) else p
  let p := if button_rt be compare ≠ button_rt be input then
    input_report_key p Code.BTN_TR (button_rt be input) else p
  let p := if button_b be compare ≠ button_b be input then
    input_report_key p Code.BTN_B (button_b be input) else p
  let p := if button_lt be compare ≠ button_lt be input then
    input_report_key p Code.BTN_TL (button_lt be input) else p
  let p := if button_start be compare ≠ button_start be input then
    input_report_key p Code.BTN_START (button_start be input) else p
  let p := if button_select be compare ≠ button_select be input then
    input_report_key p Code.BTN_SELECT (button_select be input) else p
  let p := input_sync p
  (p, input, check_keys_being_pressed be input)

/-- The device a `struct input_dev *` points to. -/
def dev (s : pandoraclone) : Slot → input_dev
  | Slot.one => s.p1
  | Slot.two => s.p2

/-- The bitfield a `mappedio_t *compare` points to. -/
def prev (s : pandoraclone) : Slot → mappedio_t
  | Slot.one => s.p1_prev
  | Slot.two => s.p2_prev

/-- Write back the device behind `p`. -/
def set_dev (s : pandoraclone) (p : Slot) (d : input_dev) : pandoraclone :=
  match p with
  | Slot.one => { s with p1 := d }
  | Slot.two => { s with p2 := d }

/-- Write back the bitfield behind `compare`. -/
def set_prev (s : pandoraclone) (c : Slot) (m : mappedio_t) : pandoraclone :=
  match c with
  | Slot.one => { s with p1_prev := m }
  | Slot.two => { s with p2_prev := m }

/-- The locals of `pandora_process_packet` that live across loop iterations.
`data` is the offset of the pointer `data` into `pandora->data`. -/
structure Locals where
  p : Option Slot
  data : Nat
  dataread : Nat
  data_valid : Bool
  keys_held : Bool

/-- Read `data[i]` of the session buffer; `none` outside the array. -/
def read (s : pandoraclone) (i : Nat) : Option u8 :=
  if h : i < PANDORA_MAX_LENGTH_BYTES then some (s.data ⟨i, h⟩) else none

/-- One iteration of the `while` loop of `pandora_process_packet`.  The
statement `data += 2` is the body of the dangling `else`, so the pointer only
moves past a `0xFF 0xFF` group; `dataread += 2` runs every time. -/
def loop_body (be : Bool) (s : pandoraclone) (l : Locals) : Option (pandoraclone × Locals) :=
  match read s l.data, read s (l.data + 1) with
  | some b0, some b1 =>
    let input : mappedio_t := ⟨b0, b1⟩
    let dataread := (l.dataread + PANDORA_SINGLE_PLAYER_DATA_LENTGH_BYTES) % 256
    if input ≠ (⟨0xFF, 0xFF⟩ : mappedio_t) then
      let tag := pid be input
      let is_special_key := decide (tag = PANDORA_SPECIAL_PREFIX)
      let p : Option Slot :=
        if tag = PANDORA_SPECIAL_PREFIX ∨ tag = PANDORA_PLAYER1_PREFIX then some Slot.one
        else if tag = PANDORA_PLAYER2_PREFIX then some Slot.two
        else l.p
      let compare : Option Slot :=
        if tag = PANDORA_SPECIAL_PREFIX ∨ tag = PANDORA_PLAYER1_PREFIX then some Slot.one
        else if tag = PANDORA_PLAYER2_PREFIX then some Slot.two
        else none
      match p with
      | some d =>
        if is_special_key then
          some (pandora_special_key_handle s, { l with p := p, dataread := dataread })
        else
          match compare with
          | some c =>
            let r := pandora_update_keys be (dev s d) input (prev s c)
            let s := set_prev (set_dev s d r.1) c r.2.1
            some (s, { l with p := p, dataread := dataread, data_valid := true,
                              keys_held := l.keys_held || r.2.2 })
          | none => none
      | none => some (s, { l with dataread := dataread })
    else
      some (s, { l with data := l.data + PANDORA_SINGLE_PLAYER_DATA_LENTGH_BYTES,
                        dataread := dataread })
  | _, _ => none

/-- The loop `while (dataread < pandora->idx)`, at most `fuel` iterations. -/
def process_loop (be : Bool) : Nat → pandoraclone → Locals → Option (pandoraclone × Locals)
  | 0, s, l => if l.dataread < s.idx then none else some (s, l)
  | fuel + 1, s, l =>
    if l.dataread < s.idx then
      match loop_body be s l with
      | some (s, l) => process_loop be fuel s l
      | none => none
    else some (s, l)

/-- The locals of `pandora_process_packet` as initialised on entry. -/
def init_locals : Locals :=
  { p := none, data := 0, dataread := 0, data_valid := false, keys_held := false }

/-- `pandora_process_packet`.  The loop counter grows by two each round, so
`idx` rounds are enough whenever the loop ends at all. -/
def pandora_process_packet (be : Bool) (s : pandoraclone) : Option pandoraclone :=
  match process_loop be s.idx s init_locals with
  | some (s, l) =>
    if l.keys_held then some { s with timer := true }
    else if l.data_valid then some { s with timer := false }
    else some s
  | none => none

/-- `pandora_interrupt`: one byte from the serial line. -/
def pandora_interrupt (be : Bool) (s : pandoraclone) (data : u8) : Option pandoraclone :=
  let s :=
    if h : s.idx < PANDORA_MAX_LENGTH_BYTES then
      { s with data := Function.update s.data ⟨s.idx, h⟩ data, idx := s.idx + 1 }
    else s
  if s.idx ≠ 0 ∧ s.idx % 2 = 0 then
    match pandora_process_packet be s with
    | some s => some { s with idx := 0 }
    | none => none
  else some s

/-- `pandora_idle_timer`, the callback of `timer`. -/
def pandora_idle_timer (be : Bool) (s : pandoraclone) : pandoraclone :=
  let all_zeroes : mappedio_t := ⟨0, 0⟩
  let s :=
    if s.special_key_timeout = false then
      { s with p1 := input_report_key s.p1 Code.BTN_MODE 0 }
    else s
  let r := pandora_update_keys be s.p1 all_zeroes s.p1_prev
  let s := { s with p1 := r.1, p1_prev := r.2.1 }
  let r := pandora_update_keys be s.p2 all_zeroes s.p2_prev
  { s with p2 := r.1, p2_prev := r.2.1 }

/-- `pandora_special_timeout_timer`, the callback of `special_key_timeout`. -/
def pandora_special_timeout_timer (s : pandoraclone) : pandoraclone :=
  let p1 := input_report_key s.p1 Code.BTN_MODE 0
  { s with p1 := input_sync p1, special_key_state := 0 }

/-- What can happen to a session: a byte arrives, or a pending timer expires. -/
inductive Input where
  | byte (b : u8)
  | idle_expiry
  | special_expiry

/-- One step of the session.  The kernel takes an expiring timer off the
pending list and then calls its callback; a timer that is not pending does not
expire, so the step leaves the session as it is.  `none` is a fault of
`pandora_interrupt`. -/
def step (be : Bool) (s : pandoraclone) : Input → Option pandoraclone
  | Input.byte b => pandora_interrupt be s b
  | Input.idle_expiry =>
    if s.timer then some (pandora_idle_timer be { s with timer := false }) else some s
  | Input.special_expiry =>
    if s.special_key_timeout then
      some (pandora_special_timeout_timer { s with special_key_timeout := false })
    else some s

/-- A sequence of steps. -/
def run (be : Bool) (s : pandoraclone) : List Input → Option pandoraclone
  | [] => some s
  | i :: is =>
    match step be s i with
    | some s => run be s is
    | none => none

/-- The two bytes of one frame, in line order. -/
def frame (b0 b1 : u8) : List Input := [Input.byte b0, Input.byte b1]

/-- The bytes of a sequence of frames, in line order. -/
def frames : List (u8 × u8) → List Input
  | [] => []
  | f :: fs => frame f.1 f.2 ++ frames fs

/-- What `pandora_process_packet` does to a session whose buffer holds exactly
the one frame `input` (`idx = 2`): the closed form that `process_packet_single`
proves equal to the call. -/
def group_result (be : Bool) (s : pandoraclone) (input : mappedio_t) : pandoraclone :=
  if input = (⟨0xFF, 0xFF⟩ : mappedio_t) then s
  else if pid be input = PANDORA_SPECIAL_PREFIX then pandora_special_key_handle s
  else if pid be input = PANDORA_PLAYER1_PREFIX then
    let r := pandora_update_keys be s.p1 input s.p1_prev
    { s with p1 := r.1, p1_prev := r.2.1, timer := r.2.2 }
  else if pid be input = PANDORA_PLAYER2_PREFIX then
    let r := pandora_update_keys be s.p2 input s.p2_prev
    { s with p2 := r.1, p2_prev := r.2.1, timer := r.2.2 }
  else s

/-- The session after one whole frame `b0 b1` has come in on an empty buffer:
the closed form that `run_frame` proves equal to the two byte steps. -/
def frame_result (be : Bool) (s : pandoraclone) (b0 b1 : u8) : pandoraclone :=
  { group_result be
      { s with data := Function.update (Function.update s.data 0 b0) 1 b1, idx := 2 }
      ⟨b0, b1⟩ with idx := 0 }

/-- The events one call of `pandora_update_keys` reports, in order. -/
def update_events (be : Bool) (input compare : mappedio_t) : List Event :=
  (pandora_update_keys be [] input compare).1

/-- The list of events of one call, chunk by chunk in program order. -/
def update_chunks (be : Bool) (input compare : mappedio_t) : List Event :=
  (if button_dpad_u be compare ≠ button_dpad_u be input ∨
      button_dpad_d be compare ≠ button_dpad_d be input then
    [Event.key Code.BTN_DPAD_UP (button_dpad_u be input),
     Event.abs Axis.ABS_Y (notnot (button_dpad_d be input) - notnot (button_dpad_u be input))]
   else []) ++
  ((if button_dpad_l be compare ≠ button_dpad_l be input ∨
      button_dpad_r be compare ≠ button_dpad_r be input then
    [Event.abs Axis.ABS_X (notnot (button_dpad_r be input) - notnot (button_dpad_l be input))]
   else []) ++
  ((if button_a be compare ≠ button_a be input then
      [Event.key Code.BTN_A (button_a be input)] else []) ++
  ((if button_x be compare ≠ button_x be input then
      [Event.key Code.BTN_X (button_x be input)] else []) ++
  ((if button_y be compare ≠ button_y be input then
      [Event.key Code.BTN_Y (button_y be input)] else []) ++
  ((if button_rt be compare ≠ button_rt be input then
      [Event.key Code.BTN_TR (button_rt be input)] else []) ++
  ((if button_b be compare ≠ button_b be input then
      [Event.key Code.BTN_B (button_b be input)] else []) ++
  ((if button_lt be compare ≠ button_lt be input then
      [Event.key Code.BTN_TL (button_lt be input)] else []) ++
  ((if button_start be compare ≠ button_start be input then
      [Event.key Code.BTN_START (button_start be input)] else []) ++
  ((if button_select be compare ≠ button_select be input then
      [Event.key Code.BTN_SELECT (button_select be input)] else []) ++
  [Event.sync])))))))))

/-- The values of the key events with code `c` in a run of events, in order. -/
def key_events (c : Code) : List Event → List Int
  | [] => []
  | Event.key c1 v :: es => if c1 = c then v :: key_events c es else key_events c es
  | _ :: es => key_events c es

/-- The values of the axis events of axis `a` in a run of events, in order. -/
def abs_events (a : Axis) : List Event → List Int
  | [] => []
  | Event.abs a1 v :: es => if a1 = a then v :: abs_events a es else abs_events a es
  | _ :: es => abs_events a es

/-- The 8 buttons of a player. -/
inductive Button where
  | A | B | X | Y | LT | RT | START | SELECT
  deriving DecidableEq

/-- The key code `pandora_update_keys` reports a button with. -/
def Button.code : Button → Code
  | Button.A => Code.BTN_A
  | Button.B => Code.BTN_B
  | Button.X => Code.BTN_X
  | Button.Y => Code.BTN_Y
  | Button.LT => Code.BTN_TL
  | Button.RT => Code.BTN_TR
  | Button.START => Code.BTN_START
  | Button.SELECT => Code.BTN_SELECT

/-- The bitfield member of a button. -/
def Button.bit (be : Bool) : Button → mappedio_t → Nat
  | Button.A => button_a be
  | Button.B => button_b be
  | Button.X => button_x be
  | Button.Y => button_y be
  | Button.LT => button_lt be
  | Button.RT => button_rt be
  | Button.START => button_start be
  | Button.SELECT => button_select be

/-- The 4 directions of a player. -/
inductive Direction where
  | UP | DOWN | LEFT | RIGHT
  deriving DecidableEq

/-- The bitfield member of a direction. -/
def Direction.bit (be : Bool) : Direction → mappedio_t → Nat
  | Direction.UP => button_dpad_u be
  | Direction.DOWN => button_dpad_d be
  | Direction.LEFT => button_dpad_l be
  | Direction.RIGHT => button_dpad_r be

/-- Apply a sequence of bitfields to one player with `pandora_update_keys`:
the device and the stored bitfield before, the device and the stored bitfield
after. -/
def apply_bitfields (be : Bool) : input_dev × mappedio_t → List mappedio_t → input_dev × mappedio_t
  | st, [] => st
  | st, input :: rest =>
    let r := pandora_update_keys be st.1 input st.2
    apply_bitfields be (r.1, r.2.1) rest

/-- Replay one event onto a set of 8 buttons: a key event of a button sets that
button to the reported value, any other event changes nothing. -/
def replay_event (st : Button → Int) : Event → Button → Int
  | Event.key c v => fun b => if b.code = c then v else st b
  | _ => st

/-- Replay a run of events in order. -/
def replay (evs : List Event) (st : Button → Int) : Button → Int :=
  evs.foldl replay_event st

/-- A step that is neither a special-tagged frame nor a special-key expiry: a
whole frame, or an expiry of the idle timer. -/
inductive Quiet where
  | frame (b0 b1 : u8)
  | idle_expiry
  deriving DecidableEq

/-- The frame of a quiet step, if it is one, does not carry the special tag. -/
def Quiet.not_special (be : Bool) : Quiet → Bool
  | Quiet.frame b0 b1 => decide (pid be ⟨b0, b1⟩ ≠ PANDORA_SPECIAL_PREFIX)
  | Quiet.idle_expiry => true

/-- The session inputs of a sequence of quiet steps. -/
def quiet_inputs : List Quiet → List Input
  | [] => []
  | Quiet.frame b0 b1 :: qs => frame b0 b1 ++ quiet_inputs qs
  | Quiet.idle_expiry :: qs => Input.idle_expiry :: quiet_inputs qs

/-- The order in which `pandora_update_keys` goes through the 8 buttons. -/
def button_order : List Button :=
  [Button.A, Button.X, Button.Y, Button.RT, Button.B, Button.LT, Button.START, Button.SELECT]

/-- The axis value a device was told last on axis `a`, `0` if it never was
told any. -/
def last_abs (a : Axis) (evs : List Event) : Int :=
  ((abs_events a evs).getLast?).getD 0

/-- The attached session with the write cursor moved to the end of the buffer. -/
def full_buffer : pandoraclone := { attached with idx := 6 }

/-- The axis value the specification describes: `+1` if only the positive
direction is pressed, `-1` if only the negative one, `0` if both or neither. -/
def axis_value (pos neg : Nat) : Int :=
  if pos ≠ 0 ∧ neg = 0 then 1 else if neg ≠ 0 ∧ pos = 0 then -1 else 0

/-- Both axes of a device were last reported at the value of the bitfield `m`. -/
def axes_fresh (be : Bool) (p : input_dev) (m : mappedio_t) : Prop :=
  last_abs Axis.ABS_X p = axis_value (button_dpad_r be m) (button_dpad_l be m) ∧
  last_abs Axis.ABS_Y p = axis_value (button_dpad_d be m) (button_dpad_u be m)

/-- The special key is pressed with its timer pending, or released with its
timer not pending. -/
def special_in_step (s : pandoraclone) : Prop :=
  (s.special_key_state = 1 ∧ s.special_key_timeout = true) ∨
  (s.special_key_state = 0 ∧ s.special_key_timeout = false)

/-- What every session reached from the attached one satisfies. -/
def inv (be : Bool) (s : pandoraclone) : Prop :=
  s.idx ≤ 1 ∧ special_in_step s ∧ axes_fresh be s.p1 s.p1_prev ∧ axes_fresh be s.p2 s.p2_prev

/-- What holds of the locals at the head of every round of the loop of
`pandora_process_packet`: the pointer `data` is not ahead of the counter, the
counter is even, and `p` is only set while `data` rests on a frame that is not
the filler and has one of the three known tags. -/
def loop_inv (be : Bool) (s : pandoraclone) (l : Locals) : Prop :=
  l.data ≤ l.dataread ∧ l.dataread % 2 = 0 ∧
  (l.p ≠ none → ∃ b0 b1, read s l.data = some b0 ∧ read s (l.data + 1) = some b1 ∧
    (⟨b0, b1⟩ : mappedio_t) ≠ ⟨0xFF, 0xFF⟩ ∧
    (pid be ⟨b0, b1⟩ = PANDORA_SPECIAL_PREFIX ∨ pid be ⟨b0, b1⟩ = PANDORA_PLAYER1_PREFIX ∨
      pid be ⟨b0, b1⟩ = PANDORA_PLAYER2_PREFIX))

/-! ## Lemmas on `pandora_update_keys` -/

/-- A conditional report, seen as an append to the device. -/
theorem report_if_eq (c : Prop) [Decidable c] (x p q l : List Event) (h : x = p ++ q) :
    (if c then x ++ l else x) = p ++ (q ++ if c then l else []) := by
  subst h
  split <;> simp

/-- Two conditional reports under one test, seen as an append to the device. -/
theorem report_if_eq2 (c : Prop) [Decidable c] (x p q l1 l2 : List Event) (h : x = p ++ q) :
    (if c then (x ++ l1) ++ l2 else x) = p ++ (q ++ if c then l1 ++ l2 else []) := by
  subst h
  split <;> simp

theorem update_keys_chunks (be : Bool) (p : input_dev) (input compare : mappedio_t) :
    (pandora_update_keys be p input compare).1 = p ++ update_chunks be input compare := by
  have h1 := report_if_eq2 (button_dpad_u be compare ≠ button_dpad_u be input ∨
      button_dpad_d be compare ≠ button_dpad_d be input) p p []
      [Event.key Code.BTN_DPAD_UP (button_dpad_u be input)]
      [Event.abs Axis.ABS_Y (notnot (button_dpad_d be input) - notnot (button_dpad_u be input))]
      (List.append_nil p).symm
  have h2 := report_if_eq (button_dpad_l be compare ≠ button_dpad_l be input ∨
      button_dpad_r be compare ≠ button_dpad_r be input) _ p _
      [Event.abs Axis.ABS_X (notnot (button_dpad_r be input) - notnot (button_dpad_l be input))] h1
  have h3 := report_if_eq (button_a be compare ≠ button_a be input) _ p _
      [Event.key Code.BTN_A (button_a be input)] h2
  have h4 := report_if_eq (button_x be compare ≠ button_x be input) _ p _
      [Event.key Code.BTN_X (button_x be input)] h3
  have h5 := report_if_eq (button_y be compare ≠ button_y be input) _ p _
      [Event.key Code.BTN_Y (button_y be input)] h4
  have h6 := report_if_eq (button_rt be compare ≠ button_rt be input) _ p _
      [Event.key Code.BTN_TR (button_rt be input)] h5
  have h7 := report_if_eq (button_b be compare ≠ button_b be input) _ p _
      [Event.key Code.BTN_B (button_b be input)] h6
  have h8 := report_if_eq (button_lt be compare ≠ button_lt be input) _ p _
      [Event.key Code.BTN_TL (button_lt be input)] h7
  have h9 := report_if_eq (button_start be compare ≠ button_start be input) _ p _
      [Event.key Code.BTN_START (button_start be input)] h8
  have h10 := report_if_eq (button_select be compare ≠ button_select be input) _ p _
      [Event.key Code.BTN_SELECT (button_select be input)] h9
  have h11 := congrArg (fun x => x ++ [Event.sync]) h10
  refine Eq.trans h11 ?_
  simp only [update_chunks, List.append_assoc, List.nil_append, List.singleton_append]

theorem update_events_eq (be : Bool) (input compare : mappedio_t) :
    update_events be input compare = update_chunks be input compare := by
  have h := update_keys_chunks be [] input compare
  simpa [update_events] using h

theorem update_keys_fst (be : Bool) (p : input_dev) (input compare : mappedio_t) :
    (pandora_update_keys be p input compare).1 = p ++ update_events be input compare := by
  rw [update_events_eq, update_keys_chunks]

theorem update_keys_snd (be : Bool) (p : input_dev) (input compare : mappedio_t) :
    (pandora_update_keys be p input compare).2.1 = input := rfl

theorem key_events_append (c : Code) (xs ys : List Event) :
    key_events c (xs ++ ys) = key_events c xs ++ key_events c ys := by
  induction xs with
  | nil => rfl
  | cons e es ih =>
    cases e with
    | key c1 v => by_cases h : c1 = c <;> simp [key_events, h, ih]
    | abs a v => simp [key_events, ih]
    | sync => simp [key_events, ih]

theorem abs_events_append (a : Axis) (xs ys : List Event) :
    abs_events a (xs ++ ys) = abs_events a xs ++ abs_events a ys := by
  induction xs with
  | nil => rfl
  | cons e es ih =>
    cases e with
    | key c1 v => simp [abs_events, ih]
    | abs a1 v => by_cases h : a1 = a <;> simp [abs_events, h, ih]
    | sync => simp [abs_events, ih]

theorem key_events_ite (c : Code) (q : Prop) [Decidable q] (l1 l2 : List Event) :
    key_events c (if q then l1 else l2) = if q then key_events c l1 else key_events c l2 := by
  split <;> rfl

theorem abs_events_ite (a : Axis) (q : Prop) [Decidable q] (l1 l2 : List Event) :
    abs_events a (if q then l1 else l2) = if q then abs_events a l1 else abs_events a l2 := by
  split <;> rfl

/-- The key events of one button among the events of one call. -/
theorem key_events_update (be : Bool) (input compare : mappedio_t) (b : Button) :
    key_events b.code (update_events be input compare) =
      if b.bit be compare ≠ b.bit be input then [(b.bit be input : Int)] else [] := by
  rw [update_events_eq]
  cases b <;>
    simp [update_chunks, key_events_append, key_events_ite, key_events, Button.code, Button.bit]

theorem notnot_sub (pos neg : Nat) : notnot pos - notnot neg = axis_value pos neg := by
  unfold notnot axis_value
  by_cases hp : pos = 0 <;> by_cases hn : neg = 0 <;> simp [hp, hn]

theorem axis_value_range (pos neg : Nat) :
    axis_value pos neg = -1 ∨ axis_value pos neg = 0 ∨ axis_value pos neg = 1 := by
  unfold axis_value
  split_ifs <;> simp

/-- The horizontal axis events among the events of one call. -/
theorem abs_x_events_update (be : Bool) (input compare : mappedio_t) :
    abs_events Axis.ABS_X (update_events be input compare) =
      if button_dpad_l be compare ≠ button_dpad_l be input ∨
          button_dpad_r be compare ≠ button_dpad_r be input then
        [axis_value (button_dpad_r be input) (button_dpad_l be input)]
      else [] := by
  rw [update_events_eq]
  simp [update_chunks, abs_events_append, abs_events_ite, abs_events, notnot_sub]

/-- The vertical axis events among the events of one call. -/
theorem abs_y_events_update (be : Bool) (input compare : mappedio_t) :
    abs_events Axis.ABS_Y (update_events be input compare) =
      if button_dpad_u be compare ≠ button_dpad_u be input ∨
          button_dpad_d be compare ≠ button_dpad_d be input then
        [axis_value (button_dpad_d be input) (button_dpad_u be input)]
      else [] := by
  rw [update_events_eq]
  simp [update_chunks, abs_events_append, abs_events_ite, abs_events, notnot_sub]

theorem zero_button_bit (be : Bool) (b : Button) : b.bit be ⟨0, 0⟩ = 0 := by
  cases be <;> cases b <;> rfl

theorem zero_direction_bit (be : Bool) (d : Direction) : d.bit be ⟨0, 0⟩ = 0 := by
  cases be <;> cases d <;> rfl

theorem zero_not_pressed (be : Bool) : check_keys_being_pressed be ⟨0, 0⟩ = false := by
  cases be <;> rfl

theorem idle_timer_p1_prev (be : Bool) (s : pandoraclone) :
    (pandora_idle_timer be s).p1_prev = ⟨0, 0⟩ := rfl

theorem idle_timer_p2_prev (be : Bool) (s : pandoraclone) :
    (pandora_idle_timer be s).p2_prev = ⟨0, 0⟩ := rfl

/-! ## One frame on an empty buffer -/

theorem interrupt_first (be : Bool) (s : pandoraclone) (b0 : u8) (h0 : s.idx = 0) :
    pandora_interrupt be s b0 =
      some { s with data := Function.update s.data 0 b0, idx := 1 } := by
  obtain ⟨p1, p2, p1p, p2p, sks, t, skt, idx, data⟩ := s
  simp only at h0
  subst h0
  simp [pandora_interrupt]

theorem process_loop_exit (be : Bool) (fuel : Nat) (s : pandoraclone) (l : Locals)
    (h : ¬ l.dataread < s.idx) : process_loop be fuel s l = some (s, l) := by
  cases fuel <;> simp [process_loop, h]

theorem process_loop_succ (be : Bool) (fuel : Nat) (s : pandoraclone) (l : Locals)
    (r : pandoraclone × Locals) (h : l.dataread < s.idx) (hb : loop_body be s l = some r) :
    process_loop be (fuel + 1) s l = process_loop be fuel r.1 r.2 := by
  simp [process_loop, h, hb]

theorem special_key_handle_idx (s : pandoraclone) :
    (pandora_special_key_handle s).idx = s.idx := by
  unfold pandora_special_key_handle
  split <;> rfl

theorem timer_of_flag (s : pandoraclone) (held : Bool) :
    (if held = true then some { s with timer := true } else some { s with timer := false }) =
      some { s with timer := held } := by
  cases held <;> rfl

theorem process_packet_single (be : Bool) (s : pandoraclone) (b0 b1 : u8) (hi : s.idx = 2)
    (h0 : read s 0 = some b0) (h1 : read s 1 = some b1) :
    pandora_process_packet be s = some (group_result be s ⟨b0, b1⟩) := by
  unfold pandora_process_packet
  rw [hi, show (2 : Nat) = 1 + 1 from rfl]
  by_cases hs : (⟨b0, b1⟩ : mappedio_t) = ⟨0xFF, 0xFF⟩
  · have hb : loop_body be s init_locals =
        some (s, { init_locals with data := 2, dataread := 2 }) := by
      simp [loop_body, init_locals, h0, h1, hs, PANDORA_SINGLE_PLAYER_DATA_LENTGH_BYTES,
            PANDORA_SPECIAL_PREFIX, PANDORA_PLAYER1_PREFIX, PANDORA_PLAYER2_PREFIX]
    rw [process_loop_succ be 1 s init_locals _ (by simp [init_locals, hi]) hb,
      process_loop_exit be 1 _ _ (by simp [hi])]
    simp [group_result, hs, init_locals]
  · by_cases hE : pid be ⟨b0, b1⟩ = PANDORA_SPECIAL_PREFIX
    · have hb : loop_body be s init_locals =
          some (pandora_special_key_handle s,
            { init_locals with p := some Slot.one, dataread := 2 }) := by
        simp [loop_body, init_locals, h0, h1, hs, hE, PANDORA_SINGLE_PLAYER_DATA_LENTGH_BYTES,
            PANDORA_SPECIAL_PREFIX, PANDORA_PLAYER1_PREFIX, PANDORA_PLAYER2_PREFIX]
      rw [process_loop_succ be 1 s init_locals _ (by simp [init_locals, hi]) hb,
        process_loop_exit be 1 _ _ (by simp [hi, special_key_handle_idx])]
      simp [group_result, hs, hE, init_locals]
    · by_cases h1p : pid be ⟨b0, b1⟩ = PANDORA_PLAYER1_PREFIX
      · have hb : loop_body be s init_locals =
            some ({ s with p1 := (pandora_update_keys be s.p1 ⟨b0, b1⟩ s.p1_prev).1,
                           p1_prev := (pandora_update_keys be s.p1 ⟨b0, b1⟩ s.p1_prev).2.1 },
              ⟨some Slot.one, 0, 2, true,
                (pandora_update_keys be s.p1 ⟨b0, b1⟩ s.p1_prev).2.2⟩) := by
          simp [loop_body, init_locals, h0, h1, hs, hE, h1p, dev, prev, set_dev, set_prev,
            PANDORA_SINGLE_PLAYER_DATA_LENTGH_BYTES,
            PANDORA_SPECIAL_PREFIX, PANDORA_PLAYER1_PREFIX, PANDORA_PLAYER2_PREFIX]
        rw [process_loop_succ be 1 s init_locals _ (by simp [init_locals, hi]) hb,
          process_loop_exit be 1 _ _ (by simp [hi])]
        simp only [group_result, hs, hE, h1p, if_false, if_true, init_locals]
        cases (pandora_update_keys be s.p1 ⟨b0, b1⟩ s.p1_prev).2.2 <;> rfl
      · by_cases h2p : pid be ⟨b0, b1⟩ = PANDORA_PLAYER2_PREFIX
        · have hb : loop_body be s init_locals =
              some ({ s with p2 := (pandora_update_keys be s.p2 ⟨b0, b1⟩ s.p2_prev).1,
                             p2_prev := (pandora_update_keys be s.p2 ⟨b0, b1⟩ s.p2_prev).2.1 },
              ⟨some Slot.two, 0, 2, true,
                (pandora_update_keys be s.p2 ⟨b0, b1⟩ s.p2_prev).2.2⟩) := by
            simp [loop_body, init_locals, h0, h1, hs, hE, h1p, h2p, dev, prev, set_dev, set_prev,
              PANDORA_SINGLE_PLAYER_DATA_LENTGH_BYTES,
            PANDORA_SPECIAL_PREFIX, PANDORA_PLAYER1_PREFIX, PANDORA_PLAYER2_PREFIX]
          rw [process_loop_succ be 1 s init_locals _ (by simp [init_locals, hi]) hb,
            process_loop_exit be 1 _ _ (by simp [hi])]
          simp only [group_result, hs, hE, h1p, h2p, if_false, if_true, init_locals]
          cases (pandora_update_keys be s.p2 ⟨b0, b1⟩ s.p2_prev).2.2 <;> rfl
        · have hb : loop_body be s init_locals =
              some (s, { init_locals with dataread := 2 }) := by
            simp only [PANDORA_SPECIAL_PREFIX, PANDORA_PLAYER1_PREFIX,
              PANDORA_PLAYER2_PREFIX] at hE h1p h2p
            simp [loop_body, init_locals, h0, h1, hs, hE, h1p, h2p,
              PANDORA_SINGLE_PLAYER_DATA_LENTGH_BYTES,
            PANDORA_SPECIAL_PREFIX, PANDORA_PLAYER1_PREFIX, PANDORA_PLAYER2_PREFIX]
          rw [process_loop_succ be 1 s init_locals _ (by simp [init_locals, hi]) hb,
            process_loop_exit be 1 _ _ (by simp [hi])]
          simp [group_result, hs, hE, h1p, h2p, init_locals]

theorem interrupt_second (be : Bool) (s : pandoraclone) (b1 : u8) (h1 : s.idx = 1) :
    pandora_interrupt be s b1 =
      match pandora_process_packet be
          { s with data := Function.update s.data 1 b1, idx := 2 } with
      | some t => some { t with idx := 0 }
      | none => none := by
  obtain ⟨p1, p2, p1p, p2p, sks, t, skt, idx, data⟩ := s
  simp only at h1
  subst h1
  simp [pandora_interrupt]

theorem run_frame (be : Bool) (s : pandoraclone) (b0 b1 : u8) (h0 : s.idx = 0) :
    run be s (frame b0 b1) = some (frame_result be s b0 b1) := by
  have hp := process_packet_single be
    { s with data := Function.update (Function.update s.data 0 b0) 1 b1, idx := 2 } b0 b1 rfl
    (by simp [read]) (by simp [read])
  simp only [run, frame, step, interrupt_first be s b0 h0]
  rw [interrupt_second be _ b1 rfl]
  simp only [hp, frame_result]

theorem run_append (be : Bool) (s : pandoraclone) (xs ys : List Input) :
    run be s (xs ++ ys) =
      match run be s xs with
      | some t => run be t ys
      | none => none := by
  induction xs generalizing s with
  | nil => rfl
  | cons x xs ih =>
    simp only [List.cons_append, run]
    cases step be s x with
    | none => rfl
    | some t => exact ih t

theorem run_frames_cons (be : Bool) (s : pandoraclone) (f : u8 × u8) (fs : List (u8 × u8))
    (h0 : s.idx = 0) :
    run be s (frames (f :: fs)) = run be (frame_result be s f.1 f.2) (frames fs) := by
  simp only [frames, run_append, run_frame be s f.1 f.2 h0]

theorem frame_result_idx (be : Bool) (s : pandoraclone) (b0 b1 : u8) :
    (frame_result be s b0 b1).idx = 0 := rfl

theorem pid_sentinel (be : Bool) : pid be ⟨0xFF, 0xFF⟩ = 15 := by
  cases be <;> rfl

/-- A frame whose tag is none of the three known ones leaves everything but
the buffer as it was. -/
theorem group_result_other (be : Bool) (s : pandoraclone) (input : mappedio_t)
    (hE : pid be input ≠ PANDORA_SPECIAL_PREFIX) (h1 : pid be input ≠ PANDORA_PLAYER1_PREFIX)
    (h2 : pid be input ≠ PANDORA_PLAYER2_PREFIX) : group_result be s input = s := by
  simp [group_result, hE, h1, h2]

/-- A special-tagged frame runs `pandora_special_key_handle` and nothing else. -/
theorem group_result_special (be : Bool) (s : pandoraclone) (input : mappedio_t)
    (hE : pid be input = PANDORA_SPECIAL_PREFIX) :
    group_result be s input = pandora_special_key_handle s := by
  have hs : input ≠ ⟨0xFF, 0xFF⟩ := by
    intro h
    rw [h, pid_sentinel] at hE
    exact absurd hE (by decide)
  simp [group_result, hs, hE]

/-- Special-tagged frames on a session whose special key is already pressed. -/
theorem special_frames_held (be : Bool) (fs : List (u8 × u8)) :
    ∀ s : pandoraclone, s.idx = 0 → s.special_key_state ≠ 0 → s.special_key_timeout = true →
      (∀ f ∈ fs, pid be ⟨f.1, f.2⟩ = PANDORA_SPECIAL_PREFIX) →
      ∃ t, run be s (frames fs) = some t ∧ t.p1 = s.p1 ∧ t.p2 = s.p2 ∧
        t.special_key_timeout = true := by
  induction fs with
  | nil => intro s _ _ ht _; exact ⟨s, rfl, rfl, rfl, ht⟩
  | cons f fs ih =>
    intro s h0 hp ht hfs
    have hE := hfs f (List.mem_cons_self f fs)
    have hr : frame_result be s f.1 f.2 =
        { s with data := Function.update (Function.update s.data 0 f.1) 1 f.2, idx := 0,
                 special_key_timeout := true } := by
      simp [frame_result, group_result_special be _ _ hE, pandora_special_key_handle, hp]
    obtain ⟨t, h1, h2, h3, h4⟩ := ih (frame_result be s f.1 f.2) rfl (by rw [hr]; exact hp)
      (by rw [hr]) (fun g hg => hfs g (List.mem_cons_of_mem f hg))
    refine ⟨t, ?_, ?_, ?_, h4⟩
    · rw [run_frames_cons be s f fs h0, h1]
    · rw [h2, hr]
    · rw [h3, hr]

/-! ## Replaying the button events -/

theorem replay_append (xs ys : List Event) (st : Button → Int) :
    replay (xs ++ ys) st = replay ys (replay xs st) := by
  simp [replay, List.foldl_append]

theorem replay_key_chunk (q : Prop) [Decidable q] (c : Code) (v : Int) (st : Button → Int) :
    replay (if q then [Event.key c v] else []) st =
      fun b => if q ∧ b.code = c then v else st b := by
  funext b
  by_cases hq : q <;> simp [replay, replay_event, hq]

theorem replay_dir_chunk (q : Prop) [Decidable q] (v w : Int) (a : Axis) (st : Button → Int) :
    replay (if q then [Event.key Code.BTN_DPAD_UP v, Event.abs a w] else []) st = st := by
  funext b
  by_cases hq : q
  · cases b <;> simp [replay, replay_event, hq, Button.code]
  · simp [replay, hq]

theorem replay_abs_chunk (q : Prop) [Decidable q] (w : Int) (a : Axis) (st : Button → Int) :
    replay (if q then [Event.abs a w] else []) st = st := by
  by_cases hq : q <;> simp [replay, replay_event, hq]

theorem replay_sync (st : Button → Int) : replay [Event.sync] st = st := rfl

/-- Replaying the events of one call moves a button to its new bit when the
bit changed and leaves it alone otherwise. -/
theorem replay_update (be : Bool) (input compare : mappedio_t) (st : Button → Int) (b : Button) :
    replay (update_events be input compare) st b =
      if b.bit be compare ≠ b.bit be input then (b.bit be input : Int) else st b := by
  rw [update_events_eq]
  unfold update_chunks
  simp only [replay_append, replay_key_chunk, replay_dir_chunk, replay_abs_chunk, replay_sync]
  cases b <;> simp [Button.code, Button.bit]

/-- Replaying the whole device log gives the stored button bits, provided it
did before the sequence was applied. -/
theorem replay_apply_bitfields (be : Bool) (inputs : List mappedio_t) (b : Button) :
    ∀ st : input_dev × mappedio_t,
      replay st.1 (fun _ => 0) b = (b.bit be st.2 : Int) →
      replay (apply_bitfields be st inputs).1 (fun _ => 0) b =
        (b.bit be (apply_bitfields be st inputs).2 : Int) := by
  induction inputs with
  | nil => intro st h; exact h
  | cons input rest ih =>
    intro st h
    simp only [apply_bitfields]
    apply ih
    simp only [update_keys_fst, update_keys_snd, replay_append, replay_update, h]
    split
    · rfl
    · rename_i hne
      simp only [ne_eq, not_not] at hne
      rw [hne]

/-! ## The mode key -/

theorem key_events_mode_update (be : Bool) (input compare : mappedio_t) :
    key_events Code.BTN_MODE (update_events be input compare) = [] := by
  rw [update_events_eq]
  simp [update_chunks, key_events_append, key_events_ite, key_events]

theorem idle_timer_p1 (be : Bool) (s : pandoraclone) :
    (pandora_idle_timer be s).p1 =
      s.p1 ++ ((if s.special_key_timeout = false then [Event.key Code.BTN_MODE 0] else []) ++
        update_events be ⟨0, 0⟩ s.p1_prev) := by
  simp only [pandora_idle_timer, update_keys_fst, input_report_key]
  split <;> simp

theorem idle_timer_p2 (be : Bool) (s : pandoraclone) :
    (pandora_idle_timer be s).p2 = s.p2 ++ update_events be ⟨0, 0⟩ s.p2_prev := by
  simp only [pandora_idle_timer, update_keys_fst]
  split <;> rfl

theorem idle_timer_special (be : Bool) (s : pandoraclone) :
    (pandora_idle_timer be s).special_key_state = s.special_key_state ∧
    (pandora_idle_timer be s).special_key_timeout = s.special_key_timeout ∧
    (pandora_idle_timer be s).idx = s.idx := by
  simp only [pandora_idle_timer]
  split <;> exact ⟨rfl, rfl, rfl⟩

theorem sentinel_tag (be : Bool) (input : mappedio_t) (h : pid be input ≠ 15) :
    input ≠ ⟨0xFF, 0xFF⟩ := by
  intro hs
  rw [hs, pid_sentinel] at h
  exact h rfl

/-- A player-1 frame runs `pandora_update_keys` on player 1 and sets the idle
timer from its result. -/
theorem group_result_player1 (be : Bool) (s : pandoraclone) (input : mappedio_t)
    (h1 : pid be input = PANDORA_PLAYER1_PREFIX) :
    group_result be s input =
      { s with p1 := (pandora_update_keys be s.p1 input s.p1_prev).1,
               p1_prev := (pandora_update_keys be s.p1 input s.p1_prev).2.1,
               timer := (pandora_update_keys be s.p1 input s.p1_prev).2.2 } := by
  have hs : input ≠ ⟨0xFF, 0xFF⟩ := sentinel_tag be input (by rw [h1]; decide)
  have hE : pid be input ≠ PANDORA_SPECIAL_PREFIX := by rw [h1]; decide
  unfold group_result
  rw [if_neg hs, if_neg hE, if_pos h1]

/-- A player-2 frame runs `pandora_update_keys` on player 2 and sets the idle
timer from its result. -/
theorem group_result_player2 (be : Bool) (s : pandoraclone) (input : mappedio_t)
    (h2 : pid be input = PANDORA_PLAYER2_PREFIX) :
    group_result be s input =
      { s with p2 := (pandora_update_keys be s.p2 input s.p2_prev).1,
               p2_prev := (pandora_update_keys be s.p2 input s.p2_prev).2.1,
               timer := (pandora_update_keys be s.p2 input s.p2_prev).2.2 } := by
  have hs : input ≠ ⟨0xFF, 0xFF⟩ := sentinel_tag be input (by rw [h2]; decide)
  have hE : pid be input ≠ PANDORA_SPECIAL_PREFIX := by rw [h2]; decide
  have h1 : pid be input ≠ PANDORA_PLAYER1_PREFIX := by rw [h2]; decide
  unfold group_result
  rw [if_neg hs, if_neg hE, if_neg h1, if_pos h2]

/-- A frame that is not special-tagged reports no mode key and leaves the
special key alone. -/
theorem frame_result_quiet (be : Bool) (s : pandoraclone) (b0 b1 : u8)
    (hE : pid be ⟨b0, b1⟩ ≠ PANDORA_SPECIAL_PREFIX) :
    ∃ e1 e2, (frame_result be s b0 b1).p1 = s.p1 ++ e1 ∧
      (frame_result be s b0 b1).p2 = s.p2 ++ e2 ∧
      key_events Code.BTN_MODE e1 = [] ∧ key_events Code.BTN_MODE e2 = [] ∧
      (frame_result be s b0 b1).special_key_state = s.special_key_state ∧
      (frame_result be s b0 b1).special_key_timeout = s.special_key_timeout := by
  by_cases h1 : pid be ⟨b0, b1⟩ = PANDORA_PLAYER1_PREFIX
  · refine ⟨update_events be ⟨b0, b1⟩ s.p1_prev, [], ?_, ?_,
      key_events_mode_update be _ _, rfl, ?_, ?_⟩ <;>
      simp [frame_result, group_result_player1 be _ _ h1, update_keys_fst]
  · by_cases h2 : pid be ⟨b0, b1⟩ = PANDORA_PLAYER2_PREFIX
    · refine ⟨[], update_events be ⟨b0, b1⟩ s.p2_prev, ?_, ?_, rfl,
        key_events_mode_update be _ _, ?_, ?_⟩ <;>
        simp [frame_result, group_result_player2 be _ _ h2, update_keys_fst]
    · refine ⟨[], [], ?_, ?_, rfl, rfl, ?_, ?_⟩ <;>
        simp [frame_result, group_result_other be _ _ hE h1 h2]

/-- Quiet steps on a session whose special key is released and whose
special-key timer is not pending. -/
theorem quiet_run (be : Bool) (qs : List Quiet) :
    ∀ s : pandoraclone, s.idx = 0 → s.special_key_state = 0 → s.special_key_timeout = false →
      (∀ q ∈ qs, q.not_special be = true) →
      ∃ t e1 e2 m, run be s (quiet_inputs qs) = some t ∧
        t.p1 = s.p1 ++ e1 ∧ t.p2 = s.p2 ++ e2 ∧
        key_events Code.BTN_MODE e1 = List.replicate m 0 ∧ m ≤ qs.count Quiet.idle_expiry ∧
        key_events Code.BTN_MODE e2 = [] ∧
        t.idx = 0 ∧ t.special_key_state = 0 ∧ t.special_key_timeout = false := by
  induction qs with
  | nil =>
    intro s h0 hk ht _
    exact ⟨s, [], [], 0, rfl, by simp, by simp, rfl, Nat.le_refl _, rfl, h0, hk, ht⟩
  | cons q qs ih =>
    intro s h0 hk ht hq
    have hrest : ∀ q1 ∈ qs, q1.not_special be = true := fun q1 h => hq q1 (List.mem_cons_of_mem q h)
    cases q with
    | frame b0 b1 =>
      have hE : pid be ⟨b0, b1⟩ ≠ PANDORA_SPECIAL_PREFIX :=
        of_decide_eq_true (hq _ (List.mem_cons_self _ _))
      obtain ⟨a1, a2, ha1, ha2, hm1, hm2, hks, hkt⟩ := frame_result_quiet be s b0 b1 hE
      obtain ⟨t, e1, e2, m, hrun, hp1, hp2, hk1, hm, hk2, hi, hss, hst⟩ :=
        ih (frame_result be s b0 b1) rfl (by rw [hks]; exact hk) (by rw [hkt]; exact ht) hrest
      refine ⟨t, a1 ++ e1, a2 ++ e2, m, ?_, ?_, ?_, ?_, ?_, ?_, hi, hss, hst⟩
      · simp only [quiet_inputs, run_append, run_frame be s b0 b1 h0, hrun]
      · rw [hp1, ha1, List.append_assoc]
      · rw [hp2, ha2, List.append_assoc]
      · rw [key_events_append, hm1, hk1, List.nil_append]
      · exact Nat.le_trans hm (List.count_le_count_cons _ _ _)
      · rw [key_events_append, hm2, hk2, List.nil_append]
    | idle_expiry =>
      by_cases htm : s.timer = true
      · obtain ⟨hs1, hs2, hs3⟩ := idle_timer_special be { s with timer := false }
        obtain ⟨t, e1, e2, m, hrun, hp1, hp2, hk1, hm, hk2, hi, hss, hst⟩ :=
          ih (pandora_idle_timer be { s with timer := false }) (by rw [hs3]; exact h0)
            (by rw [hs1]; exact hk) (by rw [hs2]; exact ht) hrest
        refine ⟨t, ([Event.key Code.BTN_MODE 0] ++ update_events be ⟨0, 0⟩ s.p1_prev) ++ e1,
          update_events be ⟨0, 0⟩ s.p2_prev ++ e2, m + 1, ?_, ?_, ?_, ?_, ?_, ?_, hi, hss, hst⟩
        · simp only [quiet_inputs, run, step, htm, if_true, hrun]
        · rw [hp1, idle_timer_p1]
          simp [ht]
        · rw [hp2, idle_timer_p2]
          simp
        · have hone : key_events Code.BTN_MODE [Event.key Code.BTN_MODE 0] = [0] := rfl
          rw [key_events_append, key_events_append, key_events_mode_update, hk1, hone,
            List.replicate_succ]
          rfl
        · rw [List.count_cons_self]
          omega
        · rw [key_events_append, key_events_mode_update, hk2, List.nil_append]
      · obtain ⟨t, e1, e2, m, hrun, hp1, hp2, hk1, hm, hk2, hi, hss, hst⟩ :=
          ih s h0 hk ht hrest
        refine ⟨t, e1, e2, m, ?_, hp1, hp2, hk1, ?_, hk2, hi, hss, hst⟩
        · simp only [quiet_inputs, run, step, htm]
          exact hrun
        · exact Nat.le_trans hm (List.count_le_count_cons _ _ _)

/-! ## Order of the events of one call -/

theorem filter_map_cons {α β : Type} (f : α → β) (q : α → Bool) (a : α) (l : List α) :
    ((a :: l).filter q).map f = (if q a = true then [f a] else []) ++ (l.filter q).map f := by
  by_cases h : q a = true <;> simp [h]

/-! ## The idle expiry, event by event -/

theorem key_events_mode_chunk (q : Prop) [Decidable q] (b : Button) :
    key_events b.code (if q then [Event.key Code.BTN_MODE 0] else []) = [] := by
  by_cases hq : q <;> cases b <;> simp [hq, key_events, Button.code]

theorem abs_events_mode_chunk (q : Prop) [Decidable q] (a : Axis) :
    abs_events a (if q then [Event.key Code.BTN_MODE 0] else []) = [] := by
  by_cases hq : q <;> simp [hq, abs_events]

/-- The button events of a release of everything: one `0` per held button. -/
theorem key_events_release (be : Bool) (compare : mappedio_t) (b : Button) :
    key_events b.code (update_events be ⟨0, 0⟩ compare) =
      if b.bit be compare ≠ 0 then [0] else [] := by
  rw [key_events_update, zero_button_bit]
  rfl

/-- The horizontal axis events of a release of everything. -/
theorem abs_x_events_release (be : Bool) (compare : mappedio_t) :
    abs_events Axis.ABS_X (update_events be ⟨0, 0⟩ compare) =
      if button_dpad_l be compare ≠ 0 ∨ button_dpad_r be compare ≠ 0 then [0] else [] := by
  have hl : button_dpad_l be ⟨0, 0⟩ = 0 := zero_direction_bit be Direction.LEFT
  have hr : button_dpad_r be ⟨0, 0⟩ = 0 := zero_direction_bit be Direction.RIGHT
  rw [abs_x_events_update, hl, hr]
  rfl

/-- The vertical axis events of a release of everything. -/
theorem abs_y_events_release (be : Bool) (compare : mappedio_t) :
    abs_events Axis.ABS_Y (update_events be ⟨0, 0⟩ compare) =
      if button_dpad_u be compare ≠ 0 ∨ button_dpad_d be compare ≠ 0 then [0] else [] := by
  have hu : button_dpad_u be ⟨0, 0⟩ = 0 := zero_direction_bit be Direction.UP
  have hd : button_dpad_d be ⟨0, 0⟩ = 0 := zero_direction_bit be Direction.DOWN
  rw [abs_y_events_update, hu, hd]
  rfl

/-! ## Sessions reached from the attached one -/

theorem interrupt_second_result (be : Bool) (s : pandoraclone) (b : u8) (h1 : s.idx = 1) :
    pandora_interrupt be s b =
      some { group_result be { s with data := Function.update s.data 1 b, idx := 2 }
        ⟨s.data 0, b⟩ with idx := 0 } := by
  have hp := process_packet_single be
    { s with data := Function.update s.data 1 b, idx := 2 } (s.data 0) b rfl
    (by simp [read]) (by simp [read])
  rw [interrupt_second be s b h1]
  simp only [hp]

theorem last_abs_append_nil (a : Axis) (p e : List Event) (h : abs_events a e = []) :
    last_abs a (p ++ e) = last_abs a p := by
  simp [last_abs, abs_events_append, h]

theorem last_abs_append_one (a : Axis) (p e : List Event) (v : Int)
    (h : abs_events a e = [v]) : last_abs a (p ++ e) = v := by
  simp [last_abs, abs_events_append, h]

theorem axes_fresh_append_nil (be : Bool) (p e : List Event) (m : mappedio_t)
    (hx : abs_events Axis.ABS_X e = []) (hy : abs_events Axis.ABS_Y e = [])
    (h : axes_fresh be p m) : axes_fresh be (p ++ e) m := by
  unfold axes_fresh
  rw [last_abs_append_nil _ _ _ hx, last_abs_append_nil _ _ _ hy]
  exact h

/-- One call of `pandora_update_keys` keeps the device's axes at the value of
the stored bitfield. -/
theorem axes_fresh_update (be : Bool) (p : input_dev) (input compare : mappedio_t)
    (h : axes_fresh be p compare) :
    axes_fresh be (p ++ update_events be input compare) input := by
  obtain ⟨hx, hy⟩ := h
  constructor
  · by_cases hc : button_dpad_l be compare ≠ button_dpad_l be input ∨
        button_dpad_r be compare ≠ button_dpad_r be input
    · exact last_abs_append_one _ _ _ _ (by rw [abs_x_events_update, if_pos hc])
    · rw [last_abs_append_nil _ _ _ (by rw [abs_x_events_update, if_neg hc]), hx]
      simp only [not_or, ne_eq, not_not] at hc
      rw [hc.1, hc.2]
  · by_cases hc : button_dpad_u be compare ≠ button_dpad_u be input ∨
        button_dpad_d be compare ≠ button_dpad_d be input
    · exact last_abs_append_one _ _ _ _ (by rw [abs_y_events_update, if_pos hc])
    · rw [last_abs_append_nil _ _ _ (by rw [abs_y_events_update, if_neg hc]), hy]
      simp only [not_or, ne_eq, not_not] at hc
      rw [hc.1, hc.2]

theorem special_key_handle_in_step (s : pandoraclone) (h : special_in_step s) :
    special_in_step (pandora_special_key_handle s) := by
  unfold pandora_special_key_handle
  split
  · exact Or.inl ⟨rfl, rfl⟩
  · rename_i hk
    rcases h with ⟨h1, _⟩ | ⟨h0, _⟩
    · exact Or.inl ⟨h1, rfl⟩
    · exact absurd h0 hk

theorem special_key_handle_fresh (be : Bool) (s : pandoraclone)
    (h1 : axes_fresh be s.p1 s.p1_prev) (h2 : axes_fresh be s.p2 s.p2_prev) :
    axes_fresh be (pandora_special_key_handle s).p1 (pandora_special_key_handle s).p1_prev ∧
    axes_fresh be (pandora_special_key_handle s).p2 (pandora_special_key_handle s).p2_prev := by
  unfold pandora_special_key_handle
  split
  · refine ⟨?_, h2⟩
    have h := axes_fresh_append_nil be s.p1 [Event.key Code.BTN_MODE 1, Event.sync] s.p1_prev
      rfl rfl h1
    simpa [input_report_key, input_sync] using h
  · exact ⟨h1, h2⟩

/-- Processing a group of one frame keeps the cursor, the agreement of the
special key with its timer, and the axes of both devices. -/
theorem group_result_keeps (be : Bool) (s : pandoraclone) (input : mappedio_t)
    (hs : special_in_step s) (h1 : axes_fresh be s.p1 s.p1_prev)
    (h2 : axes_fresh be s.p2 s.p2_prev) :
    (group_result be s input).idx = s.idx ∧
    special_in_step (group_result be s input) ∧
    axes_fresh be (group_result be s input).p1 (group_result be s input).p1_prev ∧
    axes_fresh be (group_result be s input).p2 (group_result be s input).p2_prev := by
  by_cases hE : pid be input = PANDORA_SPECIAL_PREFIX
  · rw [group_result_special be s input hE]
    exact ⟨special_key_handle_idx s, special_key_handle_in_step s hs,
      special_key_handle_fresh be s h1 h2⟩
  · by_cases hp1 : pid be input = PANDORA_PLAYER1_PREFIX
    · rw [group_result_player1 be s input hp1]
      refine ⟨rfl, hs, ?_, h2⟩
      simp only [update_keys_fst, update_keys_snd]
      exact axes_fresh_update be s.p1 input s.p1_prev h1
    · by_cases hp2 : pid be input = PANDORA_PLAYER2_PREFIX
      · rw [group_result_player2 be s input hp2]
        refine ⟨rfl, hs, h1, ?_⟩
        simp only [update_keys_fst, update_keys_snd]
        exact axes_fresh_update be s.p2 input s.p2_prev h2
      · rw [group_result_other be s input hE hp1 hp2]
        exact ⟨rfl, hs, h1, h2⟩

theorem idle_timer_fresh (be : Bool) (s : pandoraclone)
    (h1 : axes_fresh be s.p1 s.p1_prev) (h2 : axes_fresh be s.p2 s.p2_prev) :
    axes_fresh be (pandora_idle_timer be s).p1 (pandora_idle_timer be s).p1_prev ∧
    axes_fresh be (pandora_idle_timer be s).p2 (pandora_idle_timer be s).p2_prev := by
  rw [idle_timer_p1, idle_timer_p2, idle_timer_p1_prev, idle_timer_p2_prev]
  refine ⟨?_, axes_fresh_update be s.p2 ⟨0, 0⟩ s.p2_prev h2⟩
  rw [← List.append_assoc]
  exact axes_fresh_update be _ ⟨0, 0⟩ s.p1_prev
    (axes_fresh_append_nil be s.p1 _ s.p1_prev (abs_events_mode_chunk _ _)
      (abs_events_mode_chunk _ _) h1)

theorem attached_inv (be : Bool) : inv be attached := by
  refine ⟨Nat.zero_le 1, Or.inr ⟨rfl, rfl⟩, ⟨?_, ?_⟩, ⟨?_, ?_⟩⟩ <;> cases be <;> rfl

/-- Every step from a session that satisfies `inv` succeeds and leads to one
that does. -/
theorem step_inv (be : Bool) (s : pandoraclone) (i : Input) (h : inv be s) :
    ∃ t, step be s i = some t ∧ inv be t := by
  obtain ⟨hi, hs, h1, h2⟩ := h
  cases i with
  | byte b =>
    by_cases h0 : s.idx = 0
    · exact ⟨_, interrupt_first be s b h0, Nat.le_refl 1, hs, h1, h2⟩
    · have hone : s.idx = 1 := by omega
      obtain ⟨_, ks, k1, k2⟩ := group_result_keeps be
        { s with data := Function.update s.data 1 b, idx := 2 } ⟨s.data 0, b⟩ hs h1 h2
      exact ⟨_, interrupt_second_result be s b hone, Nat.zero_le 1, ks, k1, k2⟩
  | idle_expiry =>
    by_cases ht : s.timer = true
    · obtain ⟨e1, e2, e3⟩ := idle_timer_special be { s with timer := false }
      obtain ⟨k1, k2⟩ := idle_timer_fresh be { s with timer := false } h1 h2
      refine ⟨pandora_idle_timer be { s with timer := false },
        by simp only [step, ht, if_true], ?_, ?_, k1, k2⟩
      · rw [e3]; exact hi
      · unfold special_in_step
        rw [e1, e2]
        exact hs
    · exact ⟨s, by simp only [step, ht]; rfl, hi, hs, h1, h2⟩
  | special_expiry =>
    by_cases ht : s.special_key_timeout = true
    · refine ⟨pandora_special_timeout_timer { s with special_key_timeout := false },
        by simp only [step, ht, if_true], hi, Or.inr ⟨rfl, rfl⟩, ?_, h2⟩
      have h := axes_fresh_append_nil be s.p1 [Event.key Code.BTN_MODE 0, Event.sync] s.p1_prev
        rfl rfl h1
      simpa [pandora_special_timeout_timer, input_report_key, input_sync] using h
    · exact ⟨s, by simp only [step, ht]; rfl, hi, hs, h1, h2⟩

/-- Every sequence of steps from a session that satisfies `inv` succeeds and
leads to one that does. -/
theorem run_inv (be : Bool) (is : List Input) :
    ∀ s : pandoraclone, inv be s → ∃ t, run be s is = some t ∧ inv be t := by
  induction is with
  | nil => intro s h; exact ⟨s, rfl, h⟩
  | cons i is ih =>
    intro s h
    obtain ⟨t, ht, hinv⟩ := step_inv be s i h
    obtain ⟨u, hu, huinv⟩ := ih t hinv
    exact ⟨u, by simp only [run, ht, hu], huinv⟩

theorem direction_bit_lt_two (be : Bool) (d : Direction) (m : mappedio_t) : d.bit be m < 2 := by
  cases d <;> exact Nat.mod_lt _ (by decide)

/-- On bits the axis value is the difference of the two bits. -/
theorem axis_value_bits (pos neg : Nat) (hp : pos < 2) (hn : neg < 2) :
    axis_value pos neg = (pos : Int) - (neg : Int) := by
  have h1 : pos = 0 ∨ pos = 1 := by omega
  have h2 : neg = 0 ∨ neg = 1 := by omega
  rcases h1 with rfl | rfl <;> rcases h2 with rfl | rfl <;> rfl

theorem last_abs_of_fresh (be : Bool) (p : input_dev) (m : mappedio_t) (h : axes_fresh be p m) :
    last_abs Axis.ABS_X p = (button_dpad_r be m : Int) - (button_dpad_l be m : Int) ∧
    last_abs Axis.ABS_Y p = (button_dpad_d be m : Int) - (button_dpad_u be m : Int) ∧
    ∀ a : Axis, last_abs a p = -1 ∨ last_abs a p = 0 ∨ last_abs a p = 1 := by
  obtain ⟨hx, hy⟩ := h
  refine ⟨?_, ?_, ?_⟩
  · rw [hx]
    exact axis_value_bits _ _ (direction_bit_lt_two be Direction.RIGHT m)
      (direction_bit_lt_two be Direction.LEFT m)
  · rw [hy]
    exact axis_value_bits _ _ (direction_bit_lt_two be Direction.DOWN m)
      (direction_bit_lt_two be Direction.UP m)
  · intro a
    cases a with
    | ABS_X => rw [hx]; exact axis_value_range _ _
    | ABS_Y => rw [hy]; exact axis_value_range _ _

/-! ## `pandora_process_packet` on any buffer of at most 6 bytes -/

theorem read_some (s : pandoraclone) (i : Nat) (h : i < PANDORA_MAX_LENGTH_BYTES) :
    read s i = some (s.data ⟨i, h⟩) := by
  simp [read, h]

theorem read_congr (s t : pandoraclone) (i : Nat) (h : t.data = s.data) : read t i = read s i := by
  simp [read, h]

theorem special_key_handle_data (s : pandoraclone) :
    (pandora_special_key_handle s).data = s.data := by
  unfold pandora_special_key_handle
  split <;> rfl

theorem set_prev_set_dev_data (s : pandoraclone) (d c : Slot) (x : input_dev) (m : mappedio_t) :
    (set_prev (set_dev s d x) c m).data = s.data ∧ (set_prev (set_dev s d x) c m).idx = s.idx := by
  cases d <;> cases c <;> exact ⟨rfl, rfl⟩

/-- One round of the loop on a buffer of at most 6 bytes does not fault. -/
theorem loop_body_total (be : Bool) (s : pandoraclone) (l : Locals) (h : loop_inv be s l)
    (hlt : l.dataread < s.idx) (hmax : s.idx ≤ PANDORA_MAX_LENGTH_BYTES) :
    ∃ s1 l1, loop_body be s l = some (s1, l1) ∧ s1.data = s.data ∧ s1.idx = s.idx ∧
      l1.dataread = l.dataread + 2 ∧ loop_inv be s1 l1 := by
  obtain ⟨hd, heven, hp⟩ := h
  have hmax6 : s.idx ≤ 6 := hmax
  have h0 : l.data < PANDORA_MAX_LENGTH_BYTES := by
    show l.data < 6
    omega
  have h1 : l.data + 1 < PANDORA_MAX_LENGTH_BYTES := by
    show l.data + 1 < 6
    omega
  have r0 := read_some s l.data h0
  have r1 := read_some s (l.data + 1) h1
  have hmod : (l.dataread + 2) % 256 = l.dataread + 2 := by omega
  have heven2 : (l.dataread + 2) % 2 = 0 := by omega
  have hd2 : l.data ≤ l.dataread + 2 := by omega
  by_cases hs : (⟨s.data ⟨l.data, h0⟩, s.data ⟨l.data + 1, h1⟩⟩ : mappedio_t) = ⟨0xFF, 0xFF⟩
  · have hb : loop_body be s l =
        some (s, ⟨l.p, l.data + 2, l.dataread + 2, l.data_valid, l.keys_held⟩) := by
      simp [loop_body, r0, r1, hs, PANDORA_SINGLE_PLAYER_DATA_LENTGH_BYTES, hmod]
    refine ⟨_, _, hb, rfl, rfl, rfl, Nat.add_le_add_right hd 2, heven2, ?_⟩
    intro hpn
    obtain ⟨c0, c1, e0, e1, hns, _⟩ := hp hpn
    rw [r0] at e0
    rw [r1] at e1
    cases e0
    cases e1
    exact absurd hs hns
  · by_cases hE : pid be ⟨s.data ⟨l.data, h0⟩, s.data ⟨l.data + 1, h1⟩⟩ = PANDORA_SPECIAL_PREFIX
    · have hb : loop_body be s l = some (pandora_special_key_handle s,
          ⟨some Slot.one, l.data, l.dataread + 2, l.data_valid, l.keys_held⟩) := by
        simp [loop_body, r0, r1, hs, hE, PANDORA_SINGLE_PLAYER_DATA_LENTGH_BYTES, hmod,
          PANDORA_SPECIAL_PREFIX, PANDORA_PLAYER1_PREFIX, PANDORA_PLAYER2_PREFIX]
      exact ⟨_, _, hb, special_key_handle_data s, special_key_handle_idx s, rfl, hd2, heven2,
        fun _ => ⟨_, _, (read_congr s _ l.data (special_key_handle_data s)).trans r0,
          (read_congr s _ (l.data + 1) (special_key_handle_data s)).trans r1, hs, Or.inl hE⟩⟩
    · by_cases h1p : pid be ⟨s.data ⟨l.data, h0⟩, s.data ⟨l.data + 1, h1⟩⟩ =
          PANDORA_PLAYER1_PREFIX
      · have hb : loop_body be s l = some
            (set_prev (set_dev s Slot.one (pandora_update_keys be s.p1
                ⟨s.data ⟨l.data, h0⟩, s.data ⟨l.data + 1, h1⟩⟩ s.p1_prev).1) Slot.one
              (pandora_update_keys be s.p1
                ⟨s.data ⟨l.data, h0⟩, s.data ⟨l.data + 1, h1⟩⟩ s.p1_prev).2.1,
            ⟨some Slot.one, l.data, l.dataread + 2, true,
              l.keys_held || (pandora_update_keys be s.p1
                ⟨s.data ⟨l.data, h0⟩, s.data ⟨l.data + 1, h1⟩⟩ s.p1_prev).2.2⟩) := by
          simp [loop_body, r0, r1, hs, hE, h1p, dev, prev,
            PANDORA_SINGLE_PLAYER_DATA_LENTGH_BYTES, hmod,
            PANDORA_SPECIAL_PREFIX, PANDORA_PLAYER1_PREFIX, PANDORA_PLAYER2_PREFIX]
        exact ⟨_, _, hb, (set_prev_set_dev_data s _ _ _ _).1, (set_prev_set_dev_data s _ _ _ _).2,
          rfl, hd2, heven2,
          fun _ => ⟨_, _, (read_congr s _ l.data (set_prev_set_dev_data s _ _ _ _).1).trans r0,
            (read_congr s _ (l.data + 1) (set_prev_set_dev_data s _ _ _ _).1).trans r1, hs,
            Or.inr (Or.inl h1p)⟩⟩
      · by_cases h2p : pid be ⟨s.data ⟨l.data, h0⟩, s.data ⟨l.data + 1, h1⟩⟩ =
            PANDORA_PLAYER2_PREFIX
        · have hb : loop_body be s l = some
              (set_prev (set_dev s Slot.two (pandora_update_keys be s.p2
                  ⟨s.data ⟨l.data, h0⟩, s.data ⟨l.data + 1, h1⟩⟩ s.p2_prev).1) Slot.two
                (pandora_update_keys be s.p2
                  ⟨s.data ⟨l.data, h0⟩, s.data ⟨l.data + 1, h1⟩⟩ s.p2_prev).2.1,
              ⟨some Slot.two, l.data, l.dataread + 2, true,
                l.keys_held || (pandora_update_keys be s.p2
                  ⟨s.data ⟨l.data, h0⟩, s.data ⟨l.data + 1, h1⟩⟩ s.p2_prev).2.2⟩) := by
            simp [loop_body, r0, r1, hs, hE, h1p, h2p, dev, prev,
              PANDORA_SINGLE_PLAYER_DATA_LENTGH_BYTES, hmod,
              PANDORA_SPECIAL_PREFIX, PANDORA_PLAYER1_PREFIX, PANDORA_PLAYER2_PREFIX]
          exact ⟨_, _, hb, (set_prev_set_dev_data s _ _ _ _).1,
            (set_prev_set_dev_data s _ _ _ _).2, rfl, hd2, heven2,
            fun _ => ⟨_, _, (read_congr s _ l.data (set_prev_set_dev_data s _ _ _ _).1).trans r0,
              (read_congr s _ (l.data + 1) (set_prev_set_dev_data s _ _ _ _).1).trans r1, hs,
              Or.inr (Or.inr h2p)⟩⟩
        · have hpn : l.p = none := by
            by_contra hne
            obtain ⟨c0, c1, e0, e1, _, hk⟩ := hp hne
            rw [r0] at e0
            rw [r1] at e1
            cases e0
            cases e1
            rcases hk with hk | hk | hk
            · exact hE hk
            · exact h1p hk
            · exact h2p hk
          have hb : loop_body be s l =
              some (s, ⟨none, l.data, l.dataread + 2, l.data_valid, l.keys_held⟩) := by
            simp only [PANDORA_SPECIAL_PREFIX, PANDORA_PLAYER1_PREFIX,
              PANDORA_PLAYER2_PREFIX] at hE h1p h2p
            simp [loop_body, r0, r1, hs, hE, h1p, h2p, hpn,
              PANDORA_SINGLE_PLAYER_DATA_LENTGH_BYTES, hmod,
              PANDORA_SPECIAL_PREFIX, PANDORA_PLAYER1_PREFIX, PANDORA_PLAYER2_PREFIX]
          exact ⟨_, _, hb, rfl, rfl, rfl, hd2, heven2, fun hne => absurd rfl hne⟩

/-- The loop on a buffer of at most 6 bytes ends without a fault, given
enough rounds, and leaves the buffer and the cursor alone. -/
theorem process_loop_total (be : Bool) (fuel : Nat) :
    ∀ (s : pandoraclone) (l : Locals), loop_inv be s l → s.idx ≤ PANDORA_MAX_LENGTH_BYTES →
      s.idx ≤ l.dataread + 2 * fuel →
      ∃ s1 l1, process_loop be fuel s l = some (s1, l1) ∧ s1.data = s.data ∧ s1.idx = s.idx := by
  induction fuel with
  | zero =>
    intro s l _ _ hf
    exact ⟨s, l, process_loop_exit be 0 s l (by omega), rfl, rfl⟩
  | succ fuel ih =>
    intro s l hinv hmax hf
    by_cases hlt : l.dataread < s.idx
    · obtain ⟨s1, l1, hb, hdata, hidx, hread, hinv1⟩ := loop_body_total be s l hinv hlt hmax
      obtain ⟨s2, l2, hloop, hdata2, hidx2⟩ := ih s1 l1 hinv1 (by rw [hidx]; exact hmax)
        (by rw [hidx, hread]; omega)
      refine ⟨s2, l2, ?_, hdata2.trans hdata, hidx2.trans hidx⟩
      rw [process_loop_succ be fuel s l (s1, l1) hlt hb]
      exact hloop
    · exact ⟨s, l, process_loop_exit be _ s l hlt, rfl, rfl⟩

/-- `pandora_process_packet` on a buffer of at most 6 bytes returns, and
leaves the buffer and the cursor alone. -/
theorem process_packet_total (be : Bool) (s : pandoraclone)
    (hmax : s.idx ≤ PANDORA_MAX_LENGTH_BYTES) :
    ∃ t, pandora_process_packet be s = some t ∧ t.data = s.data ∧ t.idx = s.idx := by
  obtain ⟨s1, l1, hloop, hdata, hidx⟩ := process_loop_total be s.idx s init_locals
    ⟨Nat.le_refl 0, rfl, fun h => absurd rfl h⟩ hmax (by simp only [init_locals]; omega)
  unfold pandora_process_packet
  rw [hloop]
  by_cases hk : l1.keys_held = true
  · exact ⟨{ s1 with timer := true }, by simp only [hk, if_true], hdata, hidx⟩
  · by_cases hv : l1.data_valid = true
    · exact ⟨{ s1 with timer := false }, by simp [hk, hv], hdata, hidx⟩
    · exact ⟨s1, by simp [hk, hv], hdata, hidx⟩

theorem interrupt_store (be : Bool) (s : pandoraclone) (b : u8)
    (hlt : s.idx < PANDORA_MAX_LENGTH_BYTES) :
    pandora_interrupt be s b =
      if (s.idx + 1) % 2 = 0 then
        match pandora_process_packet be
            { s with data := Function.update s.data ⟨s.idx, hlt⟩ b, idx := s.idx + 1 } with
        | some u => some { u with idx := 0 }
        | none => none
      else some { s with data := Function.update s.data ⟨s.idx, hlt⟩ b, idx := s.idx + 1 } := by
  simp [pandora_interrupt, hlt]

theorem interrupt_drop (be : Bool) (s : pandoraclone) (b : u8)
    (hge : ¬ s.idx < PANDORA_MAX_LENGTH_BYTES) :
    pandora_interrupt be s b =
      if s.idx ≠ 0 ∧ s.idx % 2 = 0 then
        match pandora_process_packet be s with
        | some u => some { u with idx := 0 }
        | none => none
      else some s := by
  simp [pandora_interrupt, hge]

/-! ## Claims -/

/-- C1: for every device, previous bitfield and new bitfield, the events
`pandora_update_keys` appends hold, for each of the 8 buttons, exactly one key
event with the new bit value when the button's bit differs between previous
and new, and none when it is equal; the stored previous bitfield becomes the
new one. -/
theorem update_keys_reports_each_changed_button (be : Bool) (p : input_dev)
    (input compare : mappedio_t) (b : Button) :
    (pandora_update_keys be p input compare).1 = p ++ update_events be input compare ∧
    key_events b.code (update_events be input compare) =
      (if b.bit be compare ≠ b.bit be input then [(b.bit be input : Int)] else []) ∧
    (pandora_update_keys be p input compare).2.1 = input :=
  ⟨update_keys_fst be p input compare, key_events_update be input compare b, rfl⟩

/-- C2: for every previous and new bitfield, `pandora_update_keys` reports an
`ABS_X` event iff the left or the right bit differs, with value `+1` if only
right is set, `-1` if only left is set and `0` otherwise; `ABS_Y` likewise with
down as `+1` and up as `-1`; every reported axis value is `-1`, `0` or `+1`. -/
theorem update_keys_reports_axes (be : Bool) (p : input_dev) (input compare : mappedio_t) :
    (pandora_update_keys be p input compare).1 = p ++ update_events be input compare ∧
    abs_events Axis.ABS_X (update_events be input compare) =
      (if button_dpad_l be compare ≠ button_dpad_l be input ∨
          button_dpad_r be compare ≠ button_dpad_r be input then
        [axis_value (button_dpad_r be input) (button_dpad_l be input)]
      else []) ∧
    abs_events Axis.ABS_Y (update_events be input compare) =
      (if button_dpad_u be compare ≠ button_dpad_u be input ∨
          button_dpad_d be compare ≠ button_dpad_d be input then
        [axis_value (button_dpad_d be input) (button_dpad_u be input)]
      else []) ∧
    ∀ (a : Axis) (v : Int), v ∈ abs_events a (update_events be input compare) →
      v = -1 ∨ v = 0 ∨ v = 1 := by
  refine ⟨update_keys_fst be p input compare, abs_x_events_update be input compare,
    abs_y_events_update be input compare, ?_⟩
  intro a v hv
  cases a with
  | ABS_X =>
    rw [abs_x_events_update] at hv
    split at hv
    · simp only [List.mem_singleton] at hv
      rw [hv]
      exact axis_value_range _ _
    · simp at hv
  | ABS_Y =>
    rw [abs_y_events_update] at hv
    split at hv
    · simp only [List.mem_singleton] at hv
      rw [hv]
      exact axis_value_range _ _
    · simp at hv

/-- C3, evaluated on a little-endian target.  From the attached session a
player-1 frame with button A pressed (`0xC0 0x80`) leaves the idle timer
pending; the player-2 frame with nothing pressed that follows (`0xD0 0x00`)
takes it off again, although player 1 still has a button bit set in its stored
bitfield.  The same happens with the players swapped (`0xD0 0x80`, then
`0xC0 0x00`). -/
theorem idle_timer_disarmed_while_other_player_holds :
    (run false attached (frame 0xC0 0x80)).map
        (fun s => (s.timer, check_keys_being_pressed false s.p1_prev)) = some (true, true) ∧
    (run false attached (frame 0xC0 0x80 ++ frame 0xD0 0x00)).map
        (fun s => (s.timer, button_a false s.p1_prev, check_keys_being_pressed false s.p1_prev,
          check_keys_being_pressed false s.p2_prev)) = some (false, 1, true, false) ∧
    (run false attached (frame 0xD0 0x80 ++ frame 0xC0 0x00)).map
        (fun s => (s.timer, button_a false s.p2_prev, check_keys_being_pressed false s.p1_prev,
          check_keys_being_pressed false s.p2_prev)) = some (false, 1, false, true) := by
  decide

/-- C4: for every session state, after `pandora_idle_timer` has run the stored
bitfields of player 1 and player 2 are all-neutral: every button bit and every
direction bit is 0, and `check_keys_being_pressed` is false for both. -/
theorem idle_timer_leaves_both_players_neutral (be : Bool) (s : pandoraclone) :
    (pandora_idle_timer be s).p1_prev = ⟨0, 0⟩ ∧
    (pandora_idle_timer be s).p2_prev = ⟨0, 0⟩ ∧
    (∀ b : Button, b.bit be (pandora_idle_timer be s).p1_prev = 0 ∧
      b.bit be (pandora_idle_timer be s).p2_prev = 0) ∧
    (∀ d : Direction, d.bit be (pandora_idle_timer be s).p1_prev = 0 ∧
      d.bit be (pandora_idle_timer be s).p2_prev = 0) ∧
    check_keys_being_pressed be (pandora_idle_timer be s).p1_prev = false ∧
    check_keys_being_pressed be (pandora_idle_timer be s).p2_prev = false := by
  rw [idle_timer_p1_prev, idle_timer_p2_prev]
  exact ⟨rfl, rfl, fun b => ⟨zero_button_bit be b, zero_button_bit be b⟩,
    fun d => ⟨zero_direction_bit be d, zero_direction_bit be d⟩,
    zero_not_pressed be, zero_not_pressed be⟩

/-- C5: from a session with an empty buffer whose special key is released,
feed a run of special-tagged frames (tag `0xE`).  After any `k >= 1` of them
player 1 has received exactly one mode-key press (`BTN_MODE = 1`, then the
sync), player 2 nothing, and the special-key timer is pending.  Read at `k = 1`
this is the press on the first frame; read at `k` and `k + 1` it says that a
later frame reports nothing; and the timer is pending after each frame. -/
theorem special_frames_press_once (be : Bool) (s : pandoraclone) (fs : List (u8 × u8))
    (h0 : s.idx = 0) (hrel : s.special_key_state = 0)
    (hfs : ∀ f ∈ fs, pid be ⟨f.1, f.2⟩ = PANDORA_SPECIAL_PREFIX)
    (k : Nat) (hk1 : 1 ≤ k) (hk : k ≤ fs.length) :
    ∃ t, run be s (frames (fs.take k)) = some t ∧
      t.p1 = s.p1 ++ [Event.key Code.BTN_MODE 1, Event.sync] ∧ t.p2 = s.p2 ∧
      t.special_key_timeout = true := by
  cases fs with
  | nil => simp at hk; omega
  | cons f fs =>
    cases k with
    | zero => omega
    | succ k =>
      have hE := hfs f (List.mem_cons_self f fs)
      have hr : frame_result be s f.1 f.2 =
          { s with p1 := s.p1 ++ [Event.key Code.BTN_MODE 1, Event.sync],
                   special_key_state := 1,
                   data := Function.update (Function.update s.data 0 f.1) 1 f.2, idx := 0,
                   special_key_timeout := true } := by
        simp [frame_result, group_result_special be _ _ hE, pandora_special_key_handle, hrel,
          input_report_key, input_sync]
      obtain ⟨t, h1, h2, h3, h4⟩ := special_frames_held be (fs.take k)
        (frame_result be s f.1 f.2) rfl (by rw [hr]; simp) (by rw [hr])
        (fun g hg => hfs g (List.mem_cons_of_mem f (List.mem_of_mem_take hg)))
      refine ⟨t, ?_, ?_, ?_, h4⟩
      · rw [List.take_succ_cons, run_frames_cons be s f _ h0, h1]
      · rw [h2, hr]
      · rw [h3, hr]

/-- C5 at a concrete input: three special-tagged frames on the attached
session of a little-endian target, read after the second one. -/
theorem special_frames_press_once_witness :
    ∃ t, run false attached (frames ([(0xE0, 0x00), (0xE0, 0x00), (0xE3, 0x10)].take 2)) = some t ∧
      t.p1 = attached.p1 ++ [Event.key Code.BTN_MODE 1, Event.sync] ∧ t.p2 = attached.p2 ∧
      t.special_key_timeout = true :=
  special_frames_press_once false attached [(0xE0, 0x00), (0xE0, 0x00), (0xE3, 0x10)] rfl rfl
    (by
      intro f hf
      simp only [List.mem_cons, List.mem_singleton, List.not_mem_nil, or_false] at hf
      rcases hf with rfl | rfl | rfl <;> rfl)
    2 (by decide) (by decide)

/-- C6 fails as stated, little-endian target: player 1 presses A (`0xC0 0x80`,
idle timer pending), one special-tagged frame arrives (`0xE0 0x00`), the
special-key timer expires and reports the release; no special-tagged frame
follows, yet the expiry of the still pending idle timer reports a second
mode-key release on player 1. -/
theorem idle_expiry_repeats_mode_release :
    (run false attached (frame 0xC0 0x80 ++ frame 0xE0 0x00 ++ [Input.special_expiry])).map
        (fun s => (s.p1, s.special_key_state, s.special_key_timeout, s.timer)) =
      some ([Event.key Code.BTN_A 1, Event.sync, Event.key Code.BTN_MODE 1, Event.sync,
        Event.key Code.BTN_MODE 0, Event.sync], 0, false, true) ∧
    (run false attached (frame 0xC0 0x80 ++ frame 0xE0 0x00 ++
        [Input.special_expiry, Input.idle_expiry])).map (fun s => s.p1) =
      some [Event.key Code.BTN_A 1, Event.sync, Event.key Code.BTN_MODE 1, Event.sync,
        Event.key Code.BTN_MODE 0, Event.sync,
        Event.key Code.BTN_MODE 0, Event.key Code.BTN_A 0, Event.sync] := by
  decide

/-- C6 as amended: in a session with an empty buffer whose special-key timer
is pending, the expiry of that timer reports exactly one mode-key release on
player 1 (`BTN_MODE = 0`, then the sync) and sets the special key to released.
After that, over any sequence of frames without the special tag and idle-timer
expiries, player 2 gets no mode-key event, player 1 gets no mode-key press:
its mode-key events are releases, at most one per idle-timer expiry (none if
there is no such expiry), and the special key stays released; and whenever the
idle timer is pending afterwards, its expiry reports exactly one more release. -/
theorem special_expiry_then_only_releases (be : Bool) (s : pandoraclone) (qs : List Quiet)
    (h0 : s.idx = 0) (harm : s.special_key_timeout = true)
    (hq : ∀ q ∈ qs, q.not_special be = true) :
    ∃ s1 s2 e1 e2 m,
      step be s Input.special_expiry = some s1 ∧
      s1.p1 = s.p1 ++ [Event.key Code.BTN_MODE 0, Event.sync] ∧ s1.p2 = s.p2 ∧
      s1.special_key_state = 0 ∧
      run be s1 (quiet_inputs qs) = some s2 ∧
      s2.p1 = s1.p1 ++ e1 ∧ s2.p2 = s1.p2 ++ e2 ∧
      key_events Code.BTN_MODE e1 = List.replicate m 0 ∧ m ≤ qs.count Quiet.idle_expiry ∧
      key_events Code.BTN_MODE e2 = [] ∧
      s2.special_key_state = 0 ∧ s2.special_key_timeout = false ∧
      (s2.timer = true → ∃ s3 e3, step be s2 Input.idle_expiry = some s3 ∧
        s3.p1 = s2.p1 ++ e3 ∧ key_events Code.BTN_MODE e3 = [0]) := by
  obtain ⟨t, e1, e2, m, hrun, hp1, hp2, hk1, hm, hk2, _, hss, hst⟩ :=
    quiet_run be qs (pandora_special_timeout_timer { s with special_key_timeout := false })
      h0 rfl rfl hq
  refine ⟨pandora_special_timeout_timer { s with special_key_timeout := false }, t, e1, e2, m,
    by simp only [step, harm, if_true], ?_, rfl, rfl, hrun, hp1, hp2,
    hk1, hm, hk2, hss, hst, ?_⟩
  · simp [pandora_special_timeout_timer, input_report_key, input_sync]
  · intro htm
    refine ⟨pandora_idle_timer be { t with timer := false }, _,
      by simp only [step, htm, if_true], idle_timer_p1 be _, ?_⟩
    have hone : key_events Code.BTN_MODE [Event.key Code.BTN_MODE 0] = [0] := rfl
    simp only [hst, if_true]
    rw [key_events_append, key_events_mode_update, hone]
    rfl

/-- C6 as amended, at a concrete input: the special key is pressed with its
timer pending, then a player-1 frame and an idle expiry follow its expiry. -/
theorem special_expiry_then_only_releases_witness :
    ∃ s1 s2 e1 e2 m,
      step false { attached with special_key_state := 1, special_key_timeout := true }
        Input.special_expiry = some s1 ∧
      s1.p1 = [] ++ [Event.key Code.BTN_MODE 0, Event.sync] ∧ s1.p2 = [] ∧
      s1.special_key_state = 0 ∧
      run false s1 (quiet_inputs [Quiet.frame 0xC0 0x80, Quiet.idle_expiry]) = some s2 ∧
      s2.p1 = s1.p1 ++ e1 ∧ s2.p2 = s1.p2 ++ e2 ∧
      key_events Code.BTN_MODE e1 = List.replicate m 0 ∧
      m ≤ [Quiet.frame 0xC0 0x80, Quiet.idle_expiry].count Quiet.idle_expiry ∧
      key_events Code.BTN_MODE e2 = [] ∧
      s2.special_key_state = 0 ∧ s2.special_key_timeout = false ∧
      (s2.timer = true → ∃ s3 e3, step false s2 Input.idle_expiry = some s3 ∧
        s3.p1 = s2.p1 ++ e3 ∧ key_events Code.BTN_MODE e3 = [0]) :=
  special_expiry_then_only_releases false
    { attached with special_key_state := 1, special_key_timeout := true }
    [Quiet.frame 0xC0 0x80, Quiet.idle_expiry] rfl rfl
    (by decide)

/-- C7: for every session with an empty buffer and every `n`, feeding the
filler bytes `0xFF 0xFF` `n` times through `pandora_interrupt` succeeds,
reports nothing on either device and leaves both stored bitfields, the
special-key state and both timers as they were. -/
theorem sentinel_frames_do_nothing (be : Bool) (s : pandoraclone) (n : Nat) (h0 : s.idx = 0) :
    ∃ t, run be s (frames (List.replicate n (0xFF, 0xFF))) = some t ∧
      t.p1 = s.p1 ∧ t.p2 = s.p2 ∧ t.p1_prev = s.p1_prev ∧ t.p2_prev = s.p2_prev ∧
      t.special_key_state = s.special_key_state ∧ t.timer = s.timer ∧
      t.special_key_timeout = s.special_key_timeout ∧ t.idx = 0 := by
  induction n generalizing s with
  | zero => exact ⟨s, rfl, rfl, rfl, rfl, rfl, rfl, rfl, rfl, h0⟩
  | succ n ih =>
    have hr : frame_result be s 0xFF 0xFF =
        { s with data := Function.update (Function.update s.data 0 0xFF) 1 0xFF, idx := 0 } := by
      simp [frame_result, group_result]
    obtain ⟨t, h1, h2, h3, h4, h5, h6, h7, h8, h9⟩ := ih (frame_result be s 0xFF 0xFF) rfl
    refine ⟨t, ?_, ?_, ?_, ?_, ?_, ?_, ?_, ?_, h9⟩
    · rw [List.replicate_succ, run_frames_cons be s _ _ h0, h1]
    · rw [h2, hr]
    · rw [h3, hr]
    · rw [h4, hr]
    · rw [h5, hr]
    · rw [h6, hr]
    · rw [h7, hr]
    · rw [h8, hr]

/-- C7 at a concrete input: three filler frames on the attached session. -/
theorem sentinel_frames_do_nothing_witness :
    ∃ t, run false attached (frames (List.replicate 3 (0xFF, 0xFF))) = some t ∧
      t.p1 = attached.p1 ∧ t.p2 = attached.p2 ∧ t.p1_prev = attached.p1_prev ∧
      t.p2_prev = attached.p2_prev ∧ t.special_key_state = attached.special_key_state ∧
      t.timer = attached.timer ∧ t.special_key_timeout = attached.special_key_timeout ∧
      t.idx = 0 :=
  sentinel_frames_do_nothing false attached 3 rfl

/-- C8: for every session with an empty buffer and every 2-byte frame whose
tag is not `0xC`, `0xD` or `0xE`, feeding the frame through `pandora_interrupt`
does not fail, reports nothing and leaves both stored bitfields, the
special-key state and both timers as they were. -/
theorem unknown_tag_frame_is_ignored (be : Bool) (s : pandoraclone) (b0 b1 : u8)
    (h0 : s.idx = 0)
    (hE : pid be ⟨b0, b1⟩ ≠ PANDORA_SPECIAL_PREFIX)
    (h1 : pid be ⟨b0, b1⟩ ≠ PANDORA_PLAYER1_PREFIX)
    (h2 : pid be ⟨b0, b1⟩ ≠ PANDORA_PLAYER2_PREFIX) :
    ∃ t, run be s (frame b0 b1) = some t ∧
      t.p1 = s.p1 ∧ t.p2 = s.p2 ∧ t.p1_prev = s.p1_prev ∧ t.p2_prev = s.p2_prev ∧
      t.special_key_state = s.special_key_state ∧ t.timer = s.timer ∧
      t.special_key_timeout = s.special_key_timeout := by
  refine ⟨frame_result be s b0 b1, run_frame be s b0 b1 h0, ?_⟩
  simp [frame_result, group_result_other be _ _ hE h1 h2]

/-- C8 at a concrete input: a frame with tag `0x3` on the attached session. -/
theorem unknown_tag_frame_is_ignored_witness :
    ∃ t, run false attached (frame 0x3A 0x55) = some t ∧
      t.p1 = attached.p1 ∧ t.p2 = attached.p2 ∧ t.p1_prev = attached.p1_prev ∧
      t.p2_prev = attached.p2_prev ∧ t.special_key_state = attached.special_key_state ∧
      t.timer = attached.timer ∧ t.special_key_timeout = attached.special_key_timeout :=
  unknown_tag_frame_is_ignored false attached 0x3A 0x55 rfl (by decide) (by decide) (by decide)

/-- C9 fails as stated: on the attached session the bytes `0xFF 0xFF 0x0C 0x81`
report nothing at all, on either device and for either endianness of the
target.  The tag of the pair `0x0C 0x81` is `0x0` on a little-endian target and
`0x8` on a big-endian one, never `0xC`. -/
theorem stream_0C_81_reports_nothing :
    (run false attached [Input.byte 0xFF, Input.byte 0xFF, Input.byte 0x0C, Input.byte 0x81]).map
        (fun s => (s.p1, s.p2)) = some ([], []) ∧
    (run true attached [Input.byte 0xFF, Input.byte 0xFF, Input.byte 0x0C, Input.byte 0x81]).map
        (fun s => (s.p1, s.p2)) = some ([], []) ∧
    pid false ⟨0x0C, 0x81⟩ = 0 ∧ pid true ⟨0x0C, 0x81⟩ = 8 := by
  decide

/-- C9 as amended: on the attached session of a little-endian target the bytes
`0xFF 0xFF 0xC0 0x80` (tag `0xC` in the high nibble of the first frame byte,
one button bit in the second) report nothing for the first pair and then
exactly one button press, `BTN_A = 1` followed by the sync, on player 1 and
nothing on player 2. -/
theorem stream_C0_80_reports_one_press :
    (run false attached [Input.byte 0xFF, Input.byte 0xFF]).map
        (fun s => (s.p1, s.p2)) = some ([], []) ∧
    (run false attached [Input.byte 0xFF, Input.byte 0xFF, Input.byte 0xC0, Input.byte 0x80]).map
        (fun s => (s.p1, s.p2)) = some ([Event.key Code.BTN_A 1, Event.sync], []) ∧
    pid false ⟨0xC0, 0x80⟩ = PANDORA_PLAYER1_PREFIX := by
  decide

/-- C10: apply any finite sequence of bitfields to one player with
`pandora_update_keys`, starting from the all-neutral stored bitfield and an
empty device log.  Replaying the reported events in order onto 8 released
buttons gives, for every button, the bit of the stored bitfield. -/
theorem replay_reconstructs_button_bits (be : Bool) (inputs : List mappedio_t) (b : Button) :
    replay (apply_bitfields be ([], ⟨0, 0⟩) inputs).1 (fun _ => 0) b =
      (b.bit be (apply_bitfields be ([], ⟨0, 0⟩) inputs).2 : Int) := by
  apply replay_apply_bitfields
  simp [replay, zero_button_bit]

/-- C14: for every previous and new bitfield the events of one call of
`pandora_update_keys` come in one fixed order: the vertical pair, the
horizontal pair, then the changed buttons in the order A, X, Y, right trigger,
B, left trigger, start, select, and the sync last.  The sequence depends on
the two bitfields only: calls on two devices append the same events. -/
theorem update_keys_event_order (be : Bool) (p q : input_dev) (input compare : mappedio_t) :
    update_events be input compare =
      (if button_dpad_u be compare ≠ button_dpad_u be input ∨
          button_dpad_d be compare ≠ button_dpad_d be input then
        [Event.key Code.BTN_DPAD_UP (button_dpad_u be input),
         Event.abs Axis.ABS_Y (axis_value (button_dpad_d be input) (button_dpad_u be input))]
       else []) ++
      ((if button_dpad_l be compare ≠ button_dpad_l be input ∨
          button_dpad_r be compare ≠ button_dpad_r be input then
        [Event.abs Axis.ABS_X (axis_value (button_dpad_r be input) (button_dpad_l be input))]
       else []) ++
      ((button_order.filter (fun b => decide (b.bit be compare ≠ b.bit be input))).map
          (fun b => Event.key b.code (b.bit be input)) ++
      [Event.sync])) ∧
    (pandora_update_keys be p input compare).1 = p ++ update_events be input compare ∧
    (pandora_update_keys be q input compare).1 = q ++ update_events be input compare := by
  refine ⟨?_, update_keys_fst be p input compare, update_keys_fst be q input compare⟩
  rw [update_events_eq]
  simp only [update_chunks, button_order, filter_map_cons, List.filter_nil, List.map_nil,
    decide_eq_true_eq, Button.bit, Button.code, notnot_sub, List.append_nil, List.append_assoc]

/-- C12 fails as stated, little-endian target: player 1 sends left and right
together (`0xC3 0x00`), which reports the horizontal axis at `0` and leaves
the idle timer pending.  The horizontal axis is neutral, yet the idle expiry
reports it again (`ABS_X = 0`). -/
theorem idle_expiry_reports_neutral_axis :
    (run false attached (frame 0xC3 0x00)).map
        (fun s => (s.p1, s.timer,
          axis_value (button_dpad_r false s.p1_prev) (button_dpad_l false s.p1_prev))) =
      some ([Event.abs Axis.ABS_X 0, Event.sync], true, 0) ∧
    (run false attached (frame 0xC3 0x00 ++ [Input.idle_expiry])).map (fun s => s.p1) =
      some [Event.abs Axis.ABS_X 0, Event.sync,
        Event.key Code.BTN_MODE 0, Event.abs Axis.ABS_X 0, Event.sync] := by
  decide

/-- C12 as amended: for every session state, the events `pandora_idle_timer`
appends to each player's device hold, for each of the 8 buttons, exactly one
release (value `0`) if the button's bit was set and none if it was clear; and,
for each axis, exactly one event with value `0` if one of the two direction
bits of its pair was set (also when both were) and none if neither was. -/
theorem idle_expiry_release_events (be : Bool) (s : pandoraclone) :
    ∃ e1 e2, (pandora_idle_timer be s).p1 = s.p1 ++ e1 ∧
      (pandora_idle_timer be s).p2 = s.p2 ++ e2 ∧
      (∀ b : Button,
        key_events b.code e1 = (if b.bit be s.p1_prev ≠ 0 then [0] else []) ∧
        key_events b.code e2 = (if b.bit be s.p2_prev ≠ 0 then [0] else [])) ∧
      abs_events Axis.ABS_X e1 =
        (if button_dpad_l be s.p1_prev ≠ 0 ∨ button_dpad_r be s.p1_prev ≠ 0 then [0] else []) ∧
      abs_events Axis.ABS_Y e1 =
        (if button_dpad_u be s.p1_prev ≠ 0 ∨ button_dpad_d be s.p1_prev ≠ 0 then [0] else []) ∧
      abs_events Axis.ABS_X e2 =
        (if button_dpad_l be s.p2_prev ≠ 0 ∨ button_dpad_r be s.p2_prev ≠ 0 then [0] else []) ∧
      abs_events Axis.ABS_Y e2 =
        (if button_dpad_u be s.p2_prev ≠ 0 ∨ button_dpad_d be s.p2_prev ≠ 0 then [0] else []) := by
  refine ⟨_, _, idle_timer_p1 be s, idle_timer_p2 be s, ?_, ?_, ?_, ?_, ?_⟩
  · intro b
    refine ⟨?_, key_events_release be s.p2_prev b⟩
    rw [key_events_append, key_events_mode_chunk, key_events_release, List.nil_append]
  · rw [abs_events_append, abs_events_mode_chunk, abs_x_events_release, List.nil_append]
  · rw [abs_events_append, abs_events_mode_chunk, abs_y_events_release, List.nil_append]
  · exact abs_x_events_release be s.p2_prev
  · exact abs_y_events_release be s.p2_prev

/-- C13, evaluated on a little-endian target: player 2 sends up only
(`0xD8 0x00`), then down only (`0xD4 0x00`).  The second frame reports the
vertical axis at `+1` after the `-1` of the first, but before it a
`BTN_DPAD_UP = 0` key event, an "up released" of its own. -/
theorem up_to_down_reports_dpad_up_key :
    (run false attached (frame 0xD8 0x00)).map (fun s => s.p2) =
      some [Event.key Code.BTN_DPAD_UP 1, Event.abs Axis.ABS_Y (-1), Event.sync] ∧
    (run false attached (frame 0xD8 0x00 ++ frame 0xD4 0x00)).map (fun s => s.p2) =
      some [Event.key Code.BTN_DPAD_UP 1, Event.abs Axis.ABS_Y (-1), Event.sync,
        Event.key Code.BTN_DPAD_UP 0, Event.abs Axis.ABS_Y 1, Event.sync] := by
  decide

/-- C20: for every session with an empty buffer, one special-tagged frame fed
through `pandora_interrupt` leaves both stored bitfields and the idle timer as
they were, whatever its button and direction bits; player 2 gets no event and
player 1 nothing but the mode-key press (if the special key was released);
the special key is then pressed and its timer pending. -/
theorem special_frame_touches_special_key_only (be : Bool) (s : pandoraclone) (b0 b1 : u8)
    (h0 : s.idx = 0) (hE : pid be ⟨b0, b1⟩ = PANDORA_SPECIAL_PREFIX) :
    ∃ t, run be s (frame b0 b1) = some t ∧
      t.p1_prev = s.p1_prev ∧ t.p2_prev = s.p2_prev ∧ t.timer = s.timer ∧ t.p2 = s.p2 ∧
      t.p1 = (if s.special_key_state = 0 then
        s.p1 ++ [Event.key Code.BTN_MODE 1, Event.sync] else s.p1) ∧
      t.special_key_state = (if s.special_key_state = 0 then 1 else s.special_key_state) ∧
      t.special_key_timeout = true := by
  refine ⟨frame_result be s b0 b1, run_frame be s b0 b1 h0, ?_⟩
  by_cases hk : s.special_key_state = 0 <;>
    simp [frame_result, group_result_special be _ _ hE, pandora_special_key_handle, hk,
      input_report_key, input_sync]

/-- C20 at a concrete input: a special-tagged frame with direction and button
bits set, on the attached session of a little-endian target. -/
theorem special_frame_touches_special_key_only_witness :
    ∃ t, run false attached (frame 0xE5 0x81) = some t ∧
      t.p1_prev = attached.p1_prev ∧ t.p2_prev = attached.p2_prev ∧
      t.timer = attached.timer ∧ t.p2 = attached.p2 ∧
      t.p1 = (if attached.special_key_state = 0 then
        attached.p1 ++ [Event.key Code.BTN_MODE 1, Event.sync] else attached.p1) ∧
      t.special_key_state =
        (if attached.special_key_state = 0 then 1 else attached.special_key_state) ∧
      t.special_key_timeout = true :=
  special_frame_touches_special_key_only false attached 0xE5 0x81 rfl (by decide)

/-- C11: after any sequence of bytes and timer expiries from the attached
session (so after any sequence of frames and idle expiries), for each player
and each axis the value reported last, `0` if none ever was, is the one of the
player's stored bitfield, `ABS_X = right - left` and `ABS_Y = down - up`, and
is `-1`, `0` or `+1`. -/
theorem reported_axes_match_stored_bitfield (be : Bool) (is : List Input) :
    ∃ s, run be attached is = some s ∧
      last_abs Axis.ABS_X s.p1 =
        (button_dpad_r be s.p1_prev : Int) - (button_dpad_l be s.p1_prev : Int) ∧
      last_abs Axis.ABS_Y s.p1 =
        (button_dpad_d be s.p1_prev : Int) - (button_dpad_u be s.p1_prev : Int) ∧
      last_abs Axis.ABS_X s.p2 =
        (button_dpad_r be s.p2_prev : Int) - (button_dpad_l be s.p2_prev : Int) ∧
      last_abs Axis.ABS_Y s.p2 =
        (button_dpad_d be s.p2_prev : Int) - (button_dpad_u be s.p2_prev : Int) ∧
      ∀ a : Axis, (last_abs a s.p1 = -1 ∨ last_abs a s.p1 = 0 ∨ last_abs a s.p1 = 1) ∧
        (last_abs a s.p2 = -1 ∨ last_abs a s.p2 = 0 ∨ last_abs a s.p2 = 1) := by
  obtain ⟨s, hrun, _, _, h1, h2⟩ := run_inv be is attached (attached_inv be)
  obtain ⟨x1, y1, r1⟩ := last_abs_of_fresh be s.p1 s.p1_prev h1
  obtain ⟨x2, y2, r2⟩ := last_abs_of_fresh be s.p2 s.p2_prev h2
  exact ⟨s, hrun, x1, y1, x2, y2, fun a => ⟨r1 a, r2 a⟩⟩

/-- C17: when the pending idle timer expires, player 1 gets a mode-key release
(`BTN_MODE = 0`) iff the special-key timer is not pending at that moment; and
if the session was reached from the attached one and the release is reported,
the special key is released after the callback. -/
theorem idle_expiry_mode_release (be : Bool) (s : pandoraclone) (ht : s.timer = true) :
    ∃ t e, step be s Input.idle_expiry = some t ∧ t.p1 = s.p1 ++ e ∧
      key_events Code.BTN_MODE e = (if s.special_key_timeout = true then [] else [0]) ∧
      (∀ is : List Input, run be attached is = some s → s.special_key_timeout = false →
        t.special_key_state = 0) := by
  refine ⟨pandora_idle_timer be { s with timer := false }, _,
    by simp only [step, ht, if_true], idle_timer_p1 be _, ?_, ?_⟩
  · have hone : key_events Code.BTN_MODE [Event.key Code.BTN_MODE 0] = [0] := rfl
    rw [key_events_append, key_events_mode_update, List.append_nil]
    cases hk : s.special_key_timeout <;> simp [hk, hone, key_events]
  · intro is hrun hk
    obtain ⟨t, ht2, _, hs, _, _⟩ := run_inv be is attached (attached_inv be)
    rw [hrun] at ht2
    cases ht2
    rw [(idle_timer_special be _).1]
    rcases hs with ⟨_, h1⟩ | ⟨h0, _⟩
    · rw [hk] at h1
      exact absurd h1 (by decide)
    · exact h0

/-- C17 at a concrete input: the session the attached one is in after player 1
has pressed A (`0xC0 0x80`, little-endian target), its idle timer pending. -/
theorem idle_expiry_mode_release_witness :
    ∃ t e, step false (frame_result false attached 0xC0 0x80) Input.idle_expiry = some t ∧
      t.p1 = (frame_result false attached 0xC0 0x80).p1 ++ e ∧
      key_events Code.BTN_MODE e =
        (if (frame_result false attached 0xC0 0x80).special_key_timeout = true then []
          else [0]) ∧
      (∀ is : List Input, run false attached is = some (frame_result false attached 0xC0 0x80) →
        (frame_result false attached 0xC0 0x80).special_key_timeout = false →
        t.special_key_state = 0) :=
  idle_expiry_mode_release false (frame_result false attached 0xC0 0x80) (by decide)

/-- C18: after any sequence of bytes and timer expiries from the attached
session the special key is pressed (`special_key_state = 1`) iff the
special-key timer is pending.  (A special-key expiry only happens while that
timer is pending.) -/
theorem special_key_pressed_iff_timer_pending (be : Bool) (is : List Input) :
    ∃ s, run be attached is = some s ∧
      (s.special_key_state = 1 ↔ s.special_key_timeout = true) := by
  obtain ⟨s, hrun, _, hs, _, _⟩ := run_inv be is attached (attached_inv be)
  refine ⟨s, hrun, ?_⟩
  rcases hs with ⟨h1, h2⟩ | ⟨h1, h2⟩
  · exact ⟨fun _ => h2, fun _ => h1⟩
  · constructor
    · intro h
      rw [h1] at h
      exact absurd h (by decide)
    · intro h
      rw [h2] at h
      exact absurd h (by decide)

/-- C19: after any sequence of bytes (and timer expiries) from the attached
session the write cursor is 0 or 1, below the capacity of 6.  The next byte is
therefore stored, at position 0 or 1: with the cursor at 0 nothing else
happens, with the cursor at 1 `pandora_process_packet` runs on a buffer of
exactly 2 bytes and the cursor goes back to 0. -/
theorem cursor_is_zero_or_one (be : Bool) (is : List Input) (b : u8) :
    ∃ s, run be attached is = some s ∧ (s.idx = 0 ∨ s.idx = 1) ∧
      s.idx < PANDORA_MAX_LENGTH_BYTES ∧
      (s.idx = 0 → pandora_interrupt be s b =
        some { s with data := Function.update s.data 0 b, idx := 1 }) ∧
      (s.idx = 1 → ∃ u,
        pandora_process_packet be { s with data := Function.update s.data 1 b, idx := 2 } =
          some u ∧
        pandora_interrupt be s b = some { u with idx := 0 }) := by
  obtain ⟨s, hrun, hi, _, _, _⟩ := run_inv be is attached (attached_inv be)
  refine ⟨s, hrun, by omega, Nat.lt_of_le_of_lt hi (by decide),
    fun h0 => interrupt_first be s b h0, fun h1 => ?_⟩
  have hp := process_packet_single be
    { s with data := Function.update s.data 1 b, idx := 2 } (s.data 0) b rfl
    (by simp [read]) (by simp [read])
  refine ⟨_, hp, ?_⟩
  rw [interrupt_second be s b h1]
  simp only [hp]

/-- C15: for every session with write cursor `c <= 6` and every byte `b`,
`pandora_interrupt` returns.  If `c < 6` the byte is stored at position `c`
and the cursor moves on; otherwise the byte is dropped and the buffer keeps
its contents.  With `c1` the cursor after that, `pandora_process_packet` runs
iff `c1` is non-zero and even, on the buffer as it then is, and the cursor is
reset to 0; otherwise nothing but the buffer and the cursor has changed. -/
theorem interrupt_stores_and_triggers (be : Bool) (s : pandoraclone) (b : u8)
    (hc : s.idx ≤ PANDORA_MAX_LENGTH_BYTES) :
    ∃ t, pandora_interrupt be s b = some t ∧
      (∀ h : s.idx < PANDORA_MAX_LENGTH_BYTES, t.data = Function.update s.data ⟨s.idx, h⟩ b) ∧
      (¬ s.idx < PANDORA_MAX_LENGTH_BYTES → t.data = s.data) ∧
      (∀ c1 : Nat, c1 = (if s.idx < PANDORA_MAX_LENGTH_BYTES then s.idx + 1 else s.idx) →
        (c1 ≠ 0 ∧ c1 % 2 = 0 →
          ∃ u, pandora_process_packet be { s with data := t.data, idx := c1 } = some u ∧
            t = { u with idx := 0 }) ∧
        (¬ (c1 ≠ 0 ∧ c1 % 2 = 0) → t = { s with data := t.data, idx := c1 })) := by
  by_cases hlt : s.idx < PANDORA_MAX_LENGTH_BYTES
  · by_cases htr : (s.idx + 1) % 2 = 0
    · obtain ⟨u, hu, hud, _⟩ := process_packet_total be
        { s with data := Function.update s.data ⟨s.idx, hlt⟩ b, idx := s.idx + 1 } hlt
      refine ⟨{ u with idx := 0 }, ?_, fun _ => hud, fun h => absurd hlt h, ?_⟩
      · rw [interrupt_store be s b hlt, if_pos htr, hu]
      · intro c1 hc1
        rw [if_pos hlt] at hc1
        subst hc1
        refine ⟨fun _ => ⟨u, ?_, rfl⟩, fun h => absurd ⟨Nat.succ_ne_zero _, htr⟩ h⟩
        show pandora_process_packet be { s with data := u.data, idx := s.idx + 1 } = some u
        rw [hud]
        exact hu
    · refine ⟨{ s with data := Function.update s.data ⟨s.idx, hlt⟩ b, idx := s.idx + 1 }, ?_,
        fun _ => rfl, fun h => absurd hlt h, ?_⟩
      · rw [interrupt_store be s b hlt, if_neg htr]
      · intro c1 hc1
        rw [if_pos hlt] at hc1
        subst hc1
        exact ⟨fun h => absurd h.2 htr, fun _ => rfl⟩
  · have h6 : s.idx = 6 := Nat.le_antisymm hc (Nat.le_of_not_lt hlt)
    have htr : s.idx ≠ 0 ∧ s.idx % 2 = 0 := by rw [h6]; decide
    obtain ⟨u, hu, hud, _⟩ := process_packet_total be s hc
    refine ⟨{ u with idx := 0 }, ?_, fun h => absurd h hlt, fun _ => hud, ?_⟩
    · rw [interrupt_drop be s b hlt, if_pos htr, hu]
    · intro c1 hc1
      rw [if_neg hlt] at hc1
      subst hc1
      refine ⟨fun _ => ⟨u, ?_, rfl⟩, fun h => absurd htr h⟩
      show pandora_process_packet be { s with data := u.data, idx := s.idx } = some u
      rw [hud]
      exact hu

/-- C15 at a concrete input: a byte on a session whose buffer is full. -/
theorem interrupt_stores_and_triggers_witness :
    ∃ t, pandora_interrupt false full_buffer 0x80 = some t ∧
      (∀ h : full_buffer.idx < PANDORA_MAX_LENGTH_BYTES,
        t.data = Function.update full_buffer.data ⟨full_buffer.idx, h⟩ 0x80) ∧
      (¬ full_buffer.idx < PANDORA_MAX_LENGTH_BYTES → t.data = full_buffer.data) ∧
      (∀ c1 : Nat,
        c1 = (if full_buffer.idx < PANDORA_MAX_LENGTH_BYTES then full_buffer.idx + 1
          else full_buffer.idx) →
        (c1 ≠ 0 ∧ c1 % 2 = 0 →
          ∃ u, pandora_process_packet false { full_buffer with data := t.data, idx := c1 } =
              some u ∧
            t = { u with idx := 0 }) ∧
        (¬ (c1 ≠ 0 ∧ c1 % 2 = 0) → t = { full_buffer with data := t.data, idx := c1 })) :=
  interrupt_stores_and_triggers false full_buffer 0x80 (by decide)

end Pandora
